import Mathlib

/-!
# K9Guard challenge issuance and verification: a shallow embedding

This file embeds the K9Guard CAPTCHA engine (challenge issuer, challenge
verifier, digest functions, secure-randomness helpers) as executable Lean
definitions and proves or refutes the specification claims about it.

Modelling conventions:
* JavaScript byte arrays are `List Nat` with values below 256; machine
  arithmetic is `Nat` with explicit `% 256` / `% 2 ^ 32` where the code's
  typed arrays or 32-bit operations truncate.
* JavaScript numbers are modelled exactly, as `NumV` (a rational, or one of
  NaN / Infinity / -Infinity).  Every number the embedded code produces or
  parses has a terminating decimal expansion, and on those values the
  rational semantics of parsing, printing, comparison and the generator's
  arithmetic agrees with IEEE doubles (each such value and each rounding
  boundary that matters is exactly representable); the deviation is noted at
  each definition it concerns.
* Platform built-ins (`TextEncoder`, `JSON.parse`, Node's SHA-256,
  `Math.random`, `Date.now`, `crypto.getRandomValues`) are modelled
  faithfully for the fragment the code exercises: UTF-8 encoding and SHA-256
  are implemented in full, `JSON.parse` is implemented on the JSON fragment
  without objects and string escapes (universal theorems are stated for an
  arbitrary parse function, the concrete parser only instantiates closed
  witnesses), and the two random sources are explicit streams threaded
  through a generator state.
-/

namespace K9Guard

/-! ## Byte and hex utilities -/

/-- Lowercase hex digits, as produced by JavaScript's `Number#toString(16)`. -/
def hexDigitChars : List Char := "0123456789abcdef".data

/-- One byte to two lowercase hex characters (`b.toString(16).padStart(2, '0')`). -/
def byteToHex (b : Nat) : String :=
  String.mk [hexDigitChars.getD (b / 16 % 16) '0', hexDigitChars.getD (b % 16) '0']

/-- A byte list to its lowercase hex string. -/
def bytesToHex (bs : List Nat) : String :=
  bs.foldl (fun acc b => acc ++ byteToHex b) ""

/-- UTF-8 encoding of a single code point (models `TextEncoder` per character). -/
def utf8EncodeChar (n : Nat) : List Nat :=
  if n < 128 then [n]
  else if n < 2048 then [192 + n / 64, 128 + n % 64]
  else if n < 65536 then [224 + n / 4096, 128 + n / 64 % 64, 128 + n % 64]
  else [240 + n / 262144, 128 + n / 4096 % 64, 128 + n / 64 % 64, 128 + n % 64]

/-- UTF-8 encoding of a string (models `new TextEncoder().encode(input)`). -/
def utf8Encode (s : String) : List Nat :=
  (s.data.map (fun c => utf8EncodeChar c.toNat)).flatten

/-! ## The custom digest of `src/utils/crypto.ts` (`CryptoHash.computeHashSync`)

The accumulator is a `Uint8Array(32)`.  It is modelled as a single natural
packed in base 256 — byte `i` of the array is `h / 256 ^ i % 256` — so that
evaluating the digest inside the kernel stays in accelerated `Nat`
arithmetic.  `getB`/`setB` are the array read and the array store; a store
truncates its value to a byte exactly as the typed array does.  The
function-space restatement `amendedDigest` below is proved equal
(`computeHashBytes_eq_amendedDigest`), tying this representation to a plain
per-index description. -/

/-- Byte `i` of the packed accumulator (`simpleHash[i]`). -/
def getB (h i : Nat) : Nat := h / 256 ^ i % 256

/-- Store byte `i` of the packed accumulator (`simpleHash[i] = v`, with the
typed array's truncation of `v` to a byte). -/
def setB (h i v : Nat) : Nat :=
  h % 256 ^ i + v % 256 * 256 ^ i + h / 256 ^ (i + 1) * 256 ^ (i + 1)

/-- One byte of the initial distribution loop: both reads (`val1`, `val2`)
happen before either write, exactly as in the source, so when the two
indices coincide the second write overwrites the first using the pre-step
value. -/
def hashInitStep (h : Nat) (i b : Nat) : Nat :=
  let idx1 := i % 32
  let idx2 := i * 7 % 32
  let val1 := getB h idx1
  let val2 := getB h idx2
  setB (setB h idx1 (Nat.xor val1 b)) idx2 ((val2 + b) * 31 % 256)

/-- The initial distribution over all input bytes (accumulator starts at
zero). -/
def hashAccum (data : List Nat) : Nat :=
  data.enum.foldl (fun h p => hashInitStep h p.1 p.2) 0

/-- One in-place update of a diffusion round: neighbours are read from the
current array, so the left neighbour (and, at index 31, the right neighbour)
has already been updated within the same round. -/
def diffuseStep (round : Nat) (h : Nat) (i : Nat) : Nat :=
  let prev := getB h ((i + 31) % 32)
  let curr := getB h i
  let next := getB h ((i + 1) % 32)
  setB h i (((prev + curr * 2 + next) * 7 + round) % 256)

/-- One full diffusion round (indices 0..31 in order). -/
def diffuseRound (h : Nat) (round : Nat) : Nat :=
  (List.range 32).foldl (diffuseStep round) h

/-- `CryptoHash.computeHashSync`: initial distribution, then 16 diffusion
rounds (packed accumulator). -/
def computeHashSync (data : List Nat) : Nat :=
  (List.range 16).foldl diffuseRound (hashAccum data)

/-- The digest as its 32-byte array. -/
def computeHashBytes (data : List Nat) : List Nat :=
  (List.range 32).map (getB (computeHashSync data))

/-- `createHash('sha256').update(s).digest('hex')` of `src/utils/crypto.ts`:
the custom digest of the UTF-8 bytes, hex-encoded.  (Despite the algorithm
name, this module computes the custom mixing function above.) -/
def cryptoUtilsHashHex (s : String) : String :=
  bytesToHex (computeHashBytes (utf8Encode s))

/-! ## The digest algorithm as the specification words it

Modelled from the spec: the reference digest description, transcribed
literally.  "XOR it into accumulator index `i mod 32` and also fold it
(`(acc[(i*7) mod 32] + byte) * 31 mod 256`) into accumulator index
`(i*7) mod 32`" is read as two successive updates, the fold reading the
accumulator as it stands after the XOR; "run 16 diffusion rounds where each
byte becomes `((prev + 2*curr + next) * 7 + roundNumber) mod 256`" is read as
each round mapping every byte simultaneously from the round's starting
state. -/
def specInitStep (h : List Nat) (i b : Nat) : List Nat :=
  let h1 := h.set (i % 32) (Nat.xor (h.getD (i % 32) 0) b % 256)
  h1.set (i * 7 % 32) ((h1.getD (i * 7 % 32) 0 + b) * 31 % 256)

/-- Modelled from the spec: one literal diffusion round (simultaneous update). -/
def specDiffuseRound (h : List Nat) (round : Nat) : List Nat :=
  (List.range 32).map (fun i =>
    ((h.getD ((i + 31) % 32) 0 + 2 * h.getD i 0 + h.getD ((i + 1) % 32) 0) * 7 + round) % 256)

/-- Modelled from the spec: the digest as literally described there. -/
def specDigest (data : List Nat) : List Nat :=
  (List.range 16).foldl specDiffuseRound
    (data.enum.foldl (fun h p => specInitStep h p.1 p.2) (List.replicate 32 0))

/-! ## The amended reference digest

The same algorithm stated over an accumulator `Fin 32 → Nat`, with the two
clarifications the code forces: both per-byte updates read the accumulator
state from before the byte is processed (so when `i % 16 = 0`, where the two
indices coincide, the fold overwrites the XOR using the pre-step value), and
the diffusion rounds update bytes in place in increasing index order. -/
def amendedInitStep (acc : Fin 32 → Nat) (i b : Nat) : Fin 32 → Nat :=
  let j1 : Fin 32 := ⟨i % 32, Nat.mod_lt _ (by norm_num)⟩
  let j2 : Fin 32 := ⟨i * 7 % 32, Nat.mod_lt _ (by norm_num)⟩
  Function.update (Function.update acc j1 (Nat.xor (acc j1) b % 256)) j2
    ((acc j2 + b) * 31 % 256)

/-- The amended reference: one in-place diffusion update at index `i`. -/
def amendedDiffuseStep (round : Nat) (acc : Fin 32 → Nat) (i : Nat) : Fin 32 → Nat :=
  let j : Fin 32 := ⟨i % 32, Nat.mod_lt _ (by norm_num)⟩
  let jp : Fin 32 := ⟨(i + 31) % 32, Nat.mod_lt _ (by norm_num)⟩
  let jn : Fin 32 := ⟨(i + 1) % 32, Nat.mod_lt _ (by norm_num)⟩
  Function.update acc j (((acc jp + acc j * 2 + acc jn) * 7 + round) % 256)

/-- The amended reference digest over the functional accumulator. -/
def amendedDigest (data : List Nat) : List Nat :=
  let start : Fin 32 → Nat := fun _ => 0
  let acc := data.enum.foldl (fun h p => amendedInitStep h p.1 p.2) start
  let final := (List.range 16).foldl
    (fun h round => (List.range 32).foldl (amendedDiffuseStep round) h) acc
  (List.finRange 32).map final

/-! ## SHA-256 (Node's `crypto.createHash('sha256')`, imported by the validator)

`src/core/captchaValidator.ts` imports `createHash` from the Node built-in
`'crypto'` module, which is genuine SHA-256.  Implemented over `Nat` with
explicit truncation to 32 bits. -/

/-- 32-bit right rotation. -/
def rotr32 (x n : Nat) : Nat := (x / 2 ^ n + x % 2 ^ n * 2 ^ (32 - n)) % 2 ^ 32

/-- 32-bit addition of a list of words. -/
def add32 (xs : List Nat) : Nat := xs.foldl (· + ·) 0 % 2 ^ 32

/-- SHA-256 round constants (decimal). -/
def shaK : List Nat :=
  [1116352408, 1899447441, 3049323471, 3921009573, 961987163, 1508970993,
   2453635748, 2870763221, 3624381080, 310598401, 607225278, 1426881987,
   1925078388, 2162078206, 2614888103, 3248222580, 3835390401, 4022224774,
   264347078, 604807628, 770255983, 1249150122, 1555081692, 1996064986,
   2554220882, 2821834349, 2952996808, 3210313671, 3336571891, 3584528711,
   113926993, 338241895, 666307205, 773529912, 1294757372, 1396182291,
   1695183700, 1986661051, 2177026350, 2456956037, 2730485921, 2820302411,
   3259730800, 3345764771, 3516065817, 3600352804, 4094571909, 275423344,
   430227734, 506948616, 659060556, 883997877, 958139571, 1322822218,
   1537002063, 1747873779, 1955562222, 2024104815, 2227730452, 2361852424,
   2428436474, 2756734187, 3204031479, 3329325298]

/-- SHA-256 initial hash value (decimal). -/
def shaH0 : List Nat :=
  [1779033703, 3144134277, 1013904242, 2773480762,
   1359893119, 2600822924, 528734635, 1541459225]

/-- SHA-256 message padding: append `0x80`, zeros, and the 64-bit big-endian bit length. -/
def shaPad (msg : List Nat) : List Nat :=
  let len := msg.length
  let zeros := (119 - len % 64) % 64
  let bitLen := len * 8
  msg ++ [128] ++ List.replicate zeros 0 ++
    (List.range 8).map (fun i => bitLen / 2 ^ (8 * (7 - i)) % 256)

def shaBlocksF : Nat → List Nat → List (List Nat)
  | 0, _ => []
  | _, [] => []
  | fuel + 1, bs => bs.take 64 :: shaBlocksF fuel (bs.drop 64)

/-- Split padded input into 64-byte blocks (the fuel covers the block count). -/
def shaBlocks (bs : List Nat) : List (List Nat) := shaBlocksF (bs.length / 64 + 1) bs

/-- The 64-entry message schedule of one block. -/
def shaSchedule (block : List Nat) : List Nat :=
  let w0 := (List.range 16).map (fun i =>
    block.getD (4 * i) 0 * 16777216 + block.getD (4 * i + 1) 0 * 65536 +
    block.getD (4 * i + 2) 0 * 256 + block.getD (4 * i + 3) 0)
  (List.range 48).foldl (fun w _ =>
    let t := w.length
    let w15 := w.getD (t - 15) 0
    let w2 := w.getD (t - 2) 0
    let s0 := Nat.xor (Nat.xor (rotr32 w15 7) (rotr32 w15 18)) (w15 / 2 ^ 3)
    let s1 := Nat.xor (Nat.xor (rotr32 w2 17) (rotr32 w2 19)) (w2 / 2 ^ 10)
    w ++ [add32 [w.getD (t - 16) 0, s0, w.getD (t - 7) 0, s1]]) w0

/-- One SHA-256 compression round. -/
def shaRound (w : List Nat) (st : List Nat) (t : Nat) : List Nat :=
  let a := st.getD 0 0
  let b := st.getD 1 0
  let c := st.getD 2 0
  let d := st.getD 3 0
  let e := st.getD 4 0
  let f := st.getD 5 0
  let g := st.getD 6 0
  let h := st.getD 7 0
  let bigS1 := Nat.xor (Nat.xor (rotr32 e 6) (rotr32 e 11)) (rotr32 e 25)
  let ch := Nat.xor (Nat.land e f) (Nat.land (Nat.xor e 4294967295) g)
  let t1 := add32 [h, bigS1, ch, shaK.getD t 0, w.getD t 0]
  let bigS0 := Nat.xor (Nat.xor (rotr32 a 2) (rotr32 a 13)) (rotr32 a 22)
  let maj := Nat.xor (Nat.xor (Nat.land a b) (Nat.land a c)) (Nat.land b c)
  let t2 := add32 [bigS0, maj]
  [add32 [t1, t2], a, b, c, add32 [d, t1], e, f, g]

/-- Compress one block into the running hash value. -/
def shaCompress (hv : List Nat) (block : List Nat) : List Nat :=
  let w := shaSchedule block
  let st := (List.range 64).foldl (shaRound w) hv
  (List.range 8).map (fun i => add32 [hv.getD i 0, st.getD i 0])

/-- SHA-256 of a byte list, as 32 bytes. -/
def sha256Bytes (msg : List Nat) : List Nat :=
  let hv := (shaBlocks (shaPad msg)).foldl shaCompress shaH0
  (hv.map (fun x => [x / 16777216 % 256, x / 65536 % 256, x / 256 % 256, x % 256])).flatten

/-- Node's `createHash('sha256').update(s).digest('hex')`: SHA-256 of the
UTF-8 bytes of `s`, lowercase hex. -/
def sha256HexStr (s : String) : String :=
  bytesToHex (sha256Bytes (utf8Encode s))

/-! ## JavaScript numbers

A JavaScript number is a rational (every value handled by this system has a
terminating decimal expansion, on which the rational and IEEE-double
semantics of parsing, printing and the generator's arithmetic coincide), or
NaN / Infinity / -Infinity. -/

inductive NumV where
  | finite (q : ℚ)
  | nan
  | inf
  | negInf
deriving DecidableEq

def maxPowF : Nat → Nat → Nat → Nat
  | 0, _, _ => 0
  | fuel + 1, p, n => if 1 < p ∧ 0 < n ∧ n % p = 0 then maxPowF fuel p (n / p) + 1 else 0

/-- Largest `e` with `p ^ e ∣ n` (for `1 < p`, `0 < n`; the fuel `n` bounds
the number of divisions). -/
def maxPow (p n : Nat) : Nat := maxPowF n p n

/-- Left-pad a digit string with zeros to length `k`. -/
def padZeros (k : Nat) (s : String) : String :=
  String.mk (List.replicate (k - s.length) '0') ++ s

/-- `Number#toString()` for a finite value: shortest decimal form with no
trailing fractional zeros, `-` prefix for negatives, `"0"` for zero.  Exact
for every rational with a terminating decimal expansion (the reduced
denominator has only factors 2 and 5), which covers every number this system
produces; values outside JavaScript's fixed-notation range (absolute value at
least 1e21 or tiny) are not in scope.  Minimality of `k` guarantees no
trailing zero appears in the fractional part. -/
def numToString (q : ℚ) : String :=
  if q = 0 then "0"
  else
    let sign := if q < 0 then "-" else ""
    let n := q.num.natAbs
    let d := q.den
    let k := Nat.max (maxPow 2 d) (maxPow 5 d)
    let m := n * 10 ^ k / d
    let ip := m / 10 ^ k
    let fp := m % 10 ^ k
    if fp = 0 then sign ++ Nat.repr ip
    else sign ++ Nat.repr ip ++ "." ++ padZeros k (Nat.repr fp)

/-- `toString()` on a number, including the non-finite cases. -/
def numToStrN : NumV → String
  | .finite q => numToString q
  | .nan => "NaN"
  | .inf => "Infinity"
  | .negInf => "-Infinity"

/-- JavaScript whitespace accepted by `parseFloat` / `trim` (the ASCII part;
the Unicode space characters also in the class never occur in this
development). -/
def isJsWS (c : Char) : Bool :=
  c = ' ' || c = '\t' || c = '\n' || c = '\r' || c = Char.ofNat 11 || c = Char.ofNat 12

/-- Numeric value of a decimal digit character. -/
def digitVal (c : Char) : Nat := c.toNat - 48

/-- Decimal digit list to a natural number. -/
def digitsToNat (ds : List Char) : Nat := ds.foldl (fun a c => a * 10 + digitVal c) 0

/-- `parseFloat` after leading whitespace: optional sign, then either an
`Infinity` literal or a longest decimal mantissa `digits [. digits]` with an
optional exponent (an `e`/`E` not followed by digits is not consumed);
NaN when no digit is found.  Overflow of huge exponents to Infinity is
outside the rational model (no such literal occurs here). -/
def parseFloatCore (cs0 : List Char) : NumV :=
  let (neg, cs1) := match cs0 with
    | '-' :: r => (true, r)
    | '+' :: r => (false, r)
    | _ => (false, cs0)
  if cs1.take 8 = "Infinity".data then (if neg then NumV.negInf else NumV.inf)
  else
    let ip := cs1.takeWhile Char.isDigit
    let rest1 := cs1.dropWhile Char.isDigit
    let (fp, rest2) := match rest1 with
      | '.' :: r => (r.takeWhile Char.isDigit, r.dropWhile Char.isDigit)
      | _ => ([], rest1)
    if ip.isEmpty && fp.isEmpty then NumV.nan
    else
      let mant : Nat := digitsToNat ip * 10 ^ fp.length + digitsToNat fp
      let expN : Int := match rest2 with
        | e :: r =>
          if e = 'e' || e = 'E' then
            let (eneg, r1) := match r with
              | '-' :: r2 => (true, r2)
              | '+' :: r2 => (false, r2)
              | _ => (false, r)
            let ds := r1.takeWhile Char.isDigit
            if ds.isEmpty then 0 else (if eneg then -(digitsToNat ds : Int) else (digitsToNat ds : Int))
          else 0
        | [] => 0
      -- value = ± mant · 10 ^ (expN - fp.length), assembled as one fraction
      let numer : Int := (mant * 10 ^ expN.toNat : Nat)
      let denom : Nat := 10 ^ (fp.length + (-expN).toNat)
      NumV.finite (mkRat (if neg then -numer else numer) denom)

/-- JavaScript's global `parseFloat`. -/
def parseFloatM (s : String) : NumV := parseFloatCore (s.data.dropWhile isJsWS)

/-- `String#trim()` (over the same whitespace model). -/
def jsTrim (s : String) : String :=
  String.mk (((s.data.dropWhile isJsWS).reverse.dropWhile isJsWS).reverse)

/-- One character of the validator's accepted set
`/^[a-zA-Z0-9\s\-çÇğĞıİöÖşŞüÜ.,'!?]*$/`. -/
def isValidChar (c : Char) : Bool :=
  c.isAlpha || c.isDigit || isJsWS c ||
  c = '-' || c = '.' || c = ',' || c = '\'' || c = '!' || c = '?' ||
  c = 'ç' || c = 'Ç' || c = 'ğ' || c = 'Ğ' || c = 'ı' || c = 'İ' ||
  c = 'ö' || c = 'Ö' || c = 'ş' || c = 'Ş' || c = 'ü' || c = 'Ü'

/-- `VALID_CHAR_REGEX.test s`: every character is in the accepted set. -/
def validCharsOK (s : String) : Bool := s.data.all isValidChar

/-! ## JSON values and a model of `JSON.parse`

`JSON.parse` is a platform built-in.  Universal theorems below are stated
for an arbitrary parse function `String → Option Json` (`none` models a
parse exception); the concrete `jsonParse` implements the fragment without
objects, string escapes and non-integer numbers, which is exact on every
input any closed theorem of this file feeds it. -/

inductive Json where
  | null
  | bool (b : Bool)
  | num (q : ℚ)
  | str (s : String)
  | arr (xs : List Json)

/-- JSON whitespace. -/
def isJsonWS (c : Char) : Bool := c = ' ' || c = '\t' || c = '\n' || c = '\r'

mutual

/-- Parse one JSON value (fuelled recursive descent). -/
def parseJsonVal : Nat → List Char → Option (Json × List Char)
  | 0, _ => none
  | fuel + 1, cs =>
    match cs.dropWhile isJsonWS with
    | '[' :: r =>
      match (r.dropWhile isJsonWS) with
      | ']' :: r2 => some (Json.arr [], r2)
      | _ =>
        match parseJsonElems fuel r with
        | some (xs, rest) => some (Json.arr xs, rest)
        | none => none
    | '"' :: r =>
      let body := r.takeWhile (fun c => c ≠ '"' && c ≠ '\\')
      match r.drop body.length with
      | '"' :: r2 => some (Json.str (String.mk body), r2)
      | _ => none
    | 't' :: r => if r.take 3 = "rue".data then some (Json.bool true, r.drop 3) else none
    | 'f' :: r => if r.take 4 = "alse".data then some (Json.bool false, r.drop 4) else none
    | 'n' :: r => if r.take 3 = "ull".data then some (Json.null, r.drop 3) else none
    | '-' :: r =>
      let ds := r.takeWhile Char.isDigit
      if ds.isEmpty then none
      else some (Json.num (-(digitsToNat ds : ℚ)), r.drop ds.length)
    | c :: r =>
      if c.isDigit then
        let ds := (c :: r).takeWhile Char.isDigit
        some (Json.num ((digitsToNat ds : ℚ)), (c :: r).drop ds.length)
      else none
    | [] => none

/-- Parse the comma-separated elements of a JSON array, including the
closing bracket. -/
def parseJsonElems : Nat → List Char → Option (List Json × List Char)
  | 0, _ => none
  | fuel + 1, cs =>
    match parseJsonVal fuel cs with
    | none => none
    | some (j, rest) =>
      match rest.dropWhile isJsonWS with
      | ']' :: r2 => some ([j], r2)
      | ',' :: r2 =>
        match parseJsonElems fuel r2 with
        | some (xs, rest2) => some (j :: xs, rest2)
        | none => none
      | _ => none

end

/-- The modelled `JSON.parse`: a full-input parse of the JSON fragment above;
`none` stands for a thrown `SyntaxError`. -/
def jsonParse (s : String) : Option Json :=
  match parseJsonVal (2 * s.length + 4) s.data with
  | some (j, rest) => if (rest.dropWhile isJsonWS).isEmpty then some j else none
  | none => none

/-! ## The challenge record (`CaptchaChallenge` of `src/types/index.ts`) -/

/-- The `answer` field: a string or a number. -/
inductive AnsV where
  | str (s : String)
  | num (n : NumV)
deriving DecidableEq

/-- `answer.toString()`. -/
def AnsV.toStr : AnsV → String
  | .str s => s
  | .num n => numToStrN n

/-- A challenge record.  `expiry` is a JavaScript number (`Date.now()`
timestamps are naturals, but a deserialized record can carry any number).
An absent `steps` field is modelled as `[]`: the validator treats a missing
and an empty `steps` identically (both fail the `!challenge.steps ||
challenge.steps.length === 0` guard) and reads `steps` nowhere else. -/
inductive Challenge where
  | mk (type : String) (question : String) (answer : AnsV) (nonce : String)
       (expiry : NumV) (hashedAnswer : String) (salt : String) (steps : List Challenge)

/-- The challenge's `type` field. -/
def Challenge.type : Challenge → String
  | .mk t _ _ _ _ _ _ _ => t

/-- The challenge's `question` field. -/
def Challenge.question : Challenge → String
  | .mk _ q _ _ _ _ _ _ => q

/-- The challenge's `answer` field. -/
def Challenge.answer : Challenge → AnsV
  | .mk _ _ a _ _ _ _ _ => a

/-- The challenge's `nonce` field. -/
def Challenge.nonce : Challenge → String
  | .mk _ _ _ n _ _ _ _ => n

/-- The challenge's `expiry` field. -/
def Challenge.expiry : Challenge → NumV
  | .mk _ _ _ _ e _ _ _ => e

/-- The challenge's `hashedAnswer` field. -/
def Challenge.hashedAnswer : Challenge → String
  | .mk _ _ _ _ _ h _ _ => h

/-- The challenge's `salt` field. -/
def Challenge.salt : Challenge → String
  | .mk _ _ _ _ _ _ s _ => s

/-- The challenge's `steps` field. -/
def Challenge.steps : Challenge → List Challenge
  | .mk _ _ _ _ _ _ _ st => st

/-! ## The verifier (`CaptchaValidator` of `src/core/captchaValidator.ts`) -/

/-- `isValidInput`: a string of length 1..1000. -/
def isValidInput (input : String) : Bool :=
  !(input.length == 0 || input.length > 1000)

/-- `isNumericChallenge`: math, sequence, or mixed with a numeric stored answer. -/
def isNumericChallenge (ch : Challenge) : Bool :=
  ch.type == "math" || ch.type == "sequence" ||
    (ch.type == "mixed" && (match ch.answer with | .num _ => true | .str _ => false))

/-- `verifyAnswer`: hash the candidate with the challenge's salt and compare
to the stored digest.  The validator module imports `createHash` from the
Node built-in `'crypto'`, so this is genuine SHA-256 (unlike the issuer,
which uses the custom digest of `src/utils/crypto.ts`). -/
def verifyAnswer (ch : Challenge) (userInput : String) : Bool :=
  sha256HexStr (userInput ++ ch.salt) == ch.hashedAnswer

/-- `validateNumeric`: parse with `parseFloat`, reject NaN and infinities,
then compare digests of the number's canonical string form. -/
def validateNumeric (ch : Challenge) (userInput : String) : Bool :=
  match parseFloatM userInput with
  | .finite q => verifyAnswer ch (numToString q)
  | _ => false

/-- `validateText`: trim, check the accepted character set, compare digests. -/
def validateText (ch : Challenge) (userInput : String) : Bool :=
  let sanitized := jsTrim userInput
  if !validCharsOK sanitized then false else verifyAnswer ch sanitized

/-- `validateCustom`: identical sanitation to `validateText`. -/
def validateCustom (ch : Challenge) (userInput : String) : Bool :=
  let sanitized := jsTrim userInput
  if !validCharsOK sanitized then false else verifyAnswer ch sanitized

/-- List-size helper for the validator's recursion through `steps`. -/
theorem Challenge.sizeOf_steps_lt (ch : Challenge) : sizeOf ch.steps < sizeOf ch := by
  cases ch
  simp [Challenge.steps]

mutual

/-- `CaptchaValidator.validate`: input gate, then dispatch by challenge type.
`parse` is the ambient `JSON.parse`.  The multi branch is the body of
`CaptchaValidator.validateMulti`, written in place so that the recursion
through `steps` is structural; the standalone `validateMulti` below restates
it verbatim and `validate_multi_eq` connects the two. -/
def validate (parse : String → Option Json) : Challenge → String → Bool
  | ch@(.mk t _ _ _ _ _ _ steps), input =>
    if !isValidInput input then false
    else if t == "multi" then
      if steps.isEmpty then false
      else
        match parse input with
        | none => false
        | some (Json.arr xs) =>
          if xs.length != steps.length then false
          else validateSteps parse steps xs
        | some _ => false
    else if t == "custom" then validateCustom ch input
    else if isNumericChallenge ch then validateNumeric ch input
    else validateText ch input

/-- The loop of `validateMulti`: each parsed element must be a string and
must validate against the positionally corresponding step (the unequal
length cases are unreachable from the call site). -/
def validateSteps (parse : String → Option Json) : List Challenge → List Json → Bool
  | [], _ => true
  | _ :: _, [] => false
  | step :: ss, x :: xs =>
    match x with
    | Json.str s => validate parse step s && validateSteps parse ss xs
    | _ => false

end

/-- `CaptchaValidator.validateMulti`: reject a missing/empty `steps`, parse
the input as JSON, require an array of matching length, then verify each
element against its step in order. -/
def validateMulti (parse : String → Option Json) (ch : Challenge) (input : String) : Bool :=
  if ch.steps.isEmpty then false
  else
    match parse input with
    | none => false
    | some (Json.arr xs) =>
      if xs.length != ch.steps.length then false
      else validateSteps parse ch.steps xs
    | some _ => false

/-- On a multi challenge, `validate` is the input gate followed by
`validateMulti`. -/
theorem validate_multi_eq (parse : String → Option Json) (ch : Challenge) (input : String)
    (h : ch.type = "multi") :
    validate parse ch input = (isValidInput input && validateMulti parse ch input) := by
  cases ch with
  | mk t q a n e ha s steps =>
    simp only [Challenge.type] at h
    subst h
    simp only [validate, validateMulti, Challenge.steps]
    cases hv : isValidInput input <;> simp

/-! ## Raw JavaScript values

`K9Guard.validate` and the constructor accept arbitrary values; the
structural check `isValidChallenge` and the option-fallback logic of
`processOptions` are stated over this model. -/

inductive JSVal where
  | undef
  | null
  | bool (b : Bool)
  | num (n : NumV)
  | str (s : String)
  | arr (xs : List JSVal)
  | obj (fields : List (String × JSVal))

/-- JavaScript `typeof`. -/
def jsTypeof : JSVal → String
  | .undef => "undefined"
  | .null => "object"
  | .bool _ => "boolean"
  | .num _ => "number"
  | .str _ => "string"
  | .arr _ => "object"
  | .obj _ => "object"

/-- Property access `v[k]` (objects only; every other access this file needs
happens after a `typeof`/null check, and index properties of arrays are not
read by the embedded code).  Duplicate keys keep the first occurrence. -/
def getField (v : JSVal) (k : String) : JSVal :=
  match v with
  | .obj fs =>
    match fs.find? (fun p => p.1 == k) with
    | some p => p.2
    | none => .undef
  | _ => (.undef)

/-- JavaScript truthiness. -/
def jsTruthy : JSVal → Bool
  | .undef => false
  | .null => false
  | .bool b => b
  | .num (.finite q) => q != 0
  | .num .nan => false
  | .num _ => true
  | .str s => s != ""
  | .arr _ => true
  | .obj _ => true

/-- `a || b` on values. -/
def jsOr (a b : JSVal) : JSVal := if jsTruthy a then a else b

/-- `v === "lit"` for a string literal. -/
def jsEqStr (v : JSVal) (s : String) : Bool :=
  match v with
  | .str t => t == s
  | _ => false

/-- `K9Guard.isValidChallenge`: an object (not null) whose `type`,
`question`, `nonce`, `hashedAnswer` and `salt` are strings and whose
`expiry` is a number. -/
def isValidChallenge (v : JSVal) : Bool :=
  if jsTypeof v != "object" then false
  else if (match v with | .null => true | _ => false) then false
  else
    jsTypeof (getField v "type") == "string" &&
    jsTypeof (getField v "question") == "string" &&
    jsTypeof (getField v "nonce") == "string" &&
    jsTypeof (getField v "expiry") == "number" &&
    jsTypeof (getField v "hashedAnswer") == "string" &&
    jsTypeof (getField v "salt") == "string"

/-- String content of a value (after `isValidChallenge` the accessed fields
are guaranteed strings; the default is unreachable). -/
def strOf : JSVal → String
  | .str s => s
  | _ => ""

/-- Number content of a value (same remark). -/
def numOf : JSVal → NumV
  | .num n => n
  | _ => .nan

/-- Answer field of a record: the validator reads `answer` only through
`typeof answer === 'number'`, so any non-number, non-string value behaves
exactly like a string there and is mapped to an empty string. -/
def ansOf : JSVal → AnsV
  | .num n => .num n
  | .str s => .str s
  | _ => .str ""

mutual

/-- Walk an object's field list for `steps` and extract nested challenge
records (a missing or non-array `steps` becomes `[]`, which the validator
treats identically). -/
def toChallengeSteps : List (String × JSVal) → List Challenge
  | [] => []
  | (k, v) :: rest =>
    if k == "steps" then
      match v with
      | .arr xs => toChallengeList xs
      | _ => []
    else toChallengeSteps rest

/-- Extract each element of a `steps` array as a challenge record. -/
def toChallengeList : List JSVal → List Challenge
  | [] => []
  | v :: vs => toChallenge v :: toChallengeList vs

/-- View a raw value as a challenge record (meaningful after
`isValidChallenge`; non-object step elements become default records — the
theorems below only exercise the structurally-invalid branch on raw
values, record-level behaviour is stated on `Challenge` directly). -/
def toChallenge (v : JSVal) : Challenge :=
  match v with
  | .obj fs =>
    Challenge.mk (strOf (getField v "type")) (strOf (getField v "question"))
      (ansOf (getField v "answer")) (strOf (getField v "nonce"))
      (numOf (getField v "expiry")) (strOf (getField v "hashedAnswer"))
      (strOf (getField v "salt")) (toChallengeSteps fs)
  | _ => Challenge.mk "" "" (.str "") "" (.finite 0) "" "" []

end

/-- `now > challenge.expiry` with JavaScript number comparison (`Date.now()`
is a natural; a comparison against NaN is false). -/
def jsNowGt (now : Nat) (e : NumV) : Bool :=
  match e with
  | .finite q => (now : ℚ) > q
  | .nan => false
  | .inf => false
  | .negInf => true

/-- `K9Guard.validate` on a well-formed challenge record (such a record
always passes `isValidChallenge`, and the user input is a string by type):
reject when expired, then delegate to `CaptchaValidator.validate`. -/
def k9Validate (parse : String → Option Json) (now : Nat) (ch : Challenge)
    (input : String) : Bool :=
  if jsNowGt now ch.expiry then false else validate parse ch input

/-- `K9Guard.validate` on a raw value: the structural check runs first and
degrades to `false`; each branch is a plain boolean test, so no exception
can be raised. -/
def k9ValidateJS (parse : String → Option Json) (now : Nat) (v : JSVal)
    (input : String) : Bool :=
  if !isValidChallenge v then false
  else k9Validate parse now (toChallenge v)  input

/-! ## `K9Guard.processOptions` -/

/-- Outcome of `processOptions`: a standard option record (fields are the
raw values the code stores), or the custom-questions path.  The custom path
(question validation and sanitization) is outside every claim and not
modelled further. -/
inductive ProcOpts where
  | standard (type difficulty locale : JSVal)
  | customPath (questions : JSVal)

/-- `processOptions`: non-objects fall back to the full default record;
`type === 'custom'` takes the custom path; otherwise each missing (falsy)
field falls back to its default while any truthy value — valid or not — is
kept as-is. -/
def processOptions (v : JSVal) : ProcOpts :=
  if jsTypeof v != "object" || (match v with | .null => true | _ => false) then
    .standard (.str "math") (.str "medium") (.str "en")
  else if jsEqStr (getField v "type") "custom" then
    .customPath (getField v "questions")
  else
    .standard (jsOr (getField v "type") (.str "math"))
      (jsOr (getField v "difficulty") (.str "medium"))
      (jsOr (getField v "locale") (.str "en"))

/-! ## The issuer (`CaptchaGenerator` of `src/core/captchaGenerator.ts`)

Randomness is explicit: `bytes` is the platform CSPRNG byte stream (both the
Node `crypto.randomBytes` and the Web-Crypto-backed `CryptoUtils.randomBytes`
read from it), and `mrand` is the separate `Math.random()` stream of the
reverse-word generator, with value `k` denoting the double `k / 2 ^ 53`.
`now` is the `Date.now()` clock, constant across one issuance. -/

structure GenState where
  bytes : Nat → Nat
  bpos : Nat
  mrand : Nat → Nat
  mpos : Nat
  usedNonces : List String
  now : Nat

/-- `randomBytes n`: the next `n` bytes of the secure stream. -/
def takeBytes (n : Nat) (st : GenState) : List Nat × GenState :=
  ((List.range n).map (fun i => st.bytes (st.bpos + i) % 256),
   { st with bpos := st.bpos + n })

/-- `buffer.readUInt32LE(0)` on a 4-byte buffer. -/
def readUInt32LE (bs : List Nat) : Nat :=
  bs.getD 0 0 + bs.getD 1 0 * 256 + bs.getD 2 0 * 65536 + bs.getD 3 0 * 16777216

/-- Draw 4 secure bytes and read them as a little-endian 32-bit integer. -/
def randU32 (st : GenState) : Nat × GenState :=
  let (bs, st') := takeBytes 4 st
  (readUInt32LE bs, st')

/-- One `Math.random()` draw, as the numerator of a dyadic in `[0, 1)`. -/
def nextMathRandom (st : GenState) : Nat × GenState :=
  (st.mrand st.mpos % 2 ^ 53, { st with mpos := st.mpos + 1 })

/-- `Random.getRandomNumber`: scale a normalized 32-bit draw into the
difficulty band and add 1.  `Math.floor((u / 0xFFFFFFFF) * n)` is modelled
by the exact rational floor `u * n / 0xFFFFFFFF`; the two agree at every
draw this file evaluates.  An unknown difficulty takes the hard band, as in
the source's if-chain. -/
def getRandomNumber (difficulty : String) (st : GenState) : Nat × GenState :=
  let (u, st') := randU32 st
  if difficulty == "easy" then (u * 10 / 4294967295 + 1, st')
  else if difficulty == "medium" then (u * 50 / 4294967295 + 1, st')
  else (u * 100 / 4294967295 + 1, st')

/-- `Random.getRandomOperator`: one secure byte modulo 4. -/
def getRandomOperator (st : GenState) : String × GenState :=
  let (bs, st') := takeBytes 1 st
  (["+", "-", "*", "/"].getD (bs.getD 0 0 % 4) "+", st')

/-- The 62-character alphabet of `Random.generateRandomString`. -/
def chars62 : List Char :=
  "ABCDEFGHIJKLMNOPQRSTUVWXYZabcdefghijklmnopqrstuvwxyz0123456789".data

/-- `Random.generateRandomString`: 4/6/8 secure bytes, each reduced modulo 62. -/
def generateRandomString (difficulty : String) (st : GenState) : String × GenState :=
  let len := if difficulty == "easy" then 4 else if difficulty == "medium" then 6 else 8
  let (bs, st') := takeBytes len st
  (String.mk (bs.map (fun b => chars62.getD (b % 62) 'A')), st')

/-- `Random.generateNonce`: 16 secure bytes, hex-encoded. -/
def generateNonce (st : GenState) : String × GenState :=
  let (bs, st') := takeBytes 16 st
  (bytesToHex bs, st')

/-- `Random.generateSalt`: 8 secure bytes, hex-encoded. -/
def generateSalt (st : GenState) : String × GenState :=
  let (bs, st') := takeBytes 8 st
  (bytesToHex bs, st')

/-- `CaptchaGenerator.calculateMath`.  Division rounds to two decimals via
`Math.round((a / b) * 100) / 100`, i.e. `⌊100 a / b + 1 / 2⌋ / 100`; for the
integer operand ranges of this generator the double computation is exact at
every rounding boundary, so the rational floor coincides with it. -/
def calculateMath (a : Nat) (op : String) (b : Nat) : NumV :=
  if op == "+" then .finite ((a + b : Nat) : ℚ)
  else if op == "-" then .finite (((a : Int) - (b : Int) : Int) : ℚ)
  else if op == "*" then .finite ((a * b : Nat) : ℚ)
  else if op == "/" then
    if b == 0 then .nan
    else .finite (mkRat ((200 * a + b) / (2 * b) : Nat) 100)
  else .finite 0

/-- The nonce do-while loop of `createChallenge`: draw, regenerate while the
draw collides with an already-emitted nonce.  Fuelled; `none` models
non-termination of the loop within the fuel. -/
def pickNonce : Nat → GenState → Option (String × GenState)
  | 0, _ => none
  | fuel + 1, st =>
    let (nonce, st') := generateNonce st
    if nonce ∈ st.usedNonces then pickNonce fuel st' else some (nonce, st')

/-- `CaptchaGenerator.createChallenge`: mint a fresh nonce and record it,
stamp `expiry = Date.now() + 5 * 60 * 1000`, draw a salt, and commit to the
answer with the custom digest of `src/utils/crypto.ts` (the issuer imports
`createHash` from there, not from Node). -/
def createChallenge (fuel : Nat) (type question : String) (answer : AnsV)
    (steps : List Challenge) (st : GenState) : Option (Challenge × GenState) :=
  match pickNonce fuel st with
  | none => none
  | some (nonce, st1) =>
    let st2 := { st1 with usedNonces := nonce :: st1.usedNonces }
    let expiry : Nat := st2.now + 5 * 60 * 1000
    let (salt, st3) := generateSalt st2
    let hashedAnswer := cryptoUtilsHashHex (answer.toStr ++ salt)
    some (Challenge.mk type question answer nonce (.finite (expiry : ℚ)) hashedAnswer salt steps, st3)

/-! ### Puzzle providers -/

/-- The scramble generator's word list. -/
def scrambleWords : List String :=
  ["apple", "cat", "dog", "house", "sun", "moon", "car", "tree", "book", "water",
   "bread", "milk", "fish", "bird", "flower", "star", "hand", "eye", "nose", "mouth"]

/-- Swap two positions of a character list (both in bounds at every use). -/
def swapChars (l : List Char) (i j : Nat) : List Char :=
  match l.get? i, l.get? j with
  | some a, some b => (l.set i b).set j a
  | _, _ => l

/-- The Fisher–Yates loop of `ScrambleGenerator.scramble`: for `i` from
`length - 1` down to 1, draw 4 secure bytes and swap position `i` with
`u % (i + 1)`. -/
def scrambleLoop : List Nat → List Char → GenState → List Char × GenState
  | [], arr, st => (arr, st)
  | i :: rest, arr, st =>
    let (u, st') := randU32 st
    scrambleLoop rest (swapChars arr i (u % (i + 1))) st'

/-- `ScrambleGenerator.scramble`. -/
def scrambleWord (word : String) (st : GenState) : String × GenState :=
  let (arr, st') := scrambleLoop ((List.range word.length).reverse.dropLast) word.data st
  (String.mk arr, st')

/-- The reverse generator's word pool; an unknown difficulty leaves the pool
undefined in the source (a `TypeError` on use), modelled as `none`. -/
def reverseWordPool (difficulty : String) : Option (List String) :=
  if difficulty == "easy" then some
    ["cat", "dog", "sun", "moon", "star", "fish", "bird", "tree",
     "ball", "book", "door", "lamp", "rock", "leaf", "wind", "fire",
     "ice", "sky", "sea", "fog", "rain", "snow", "bear", "wolf",
     "coin", "key", "cup", "pen", "box", "hat", "map", "web"]
  else if difficulty == "medium" then some
    ["apple", "house", "water", "bread", "ocean", "river", "tiger", "eagle",
     "storm", "cloud", "flame", "frost", "stone", "metal", "glass", "paper",
     "forest", "desert", "valley", "castle", "bridge", "garden", "market", "temple",
     "dragon", "wizard", "knight", "shield", "sword", "crown", "jewel", "crystal",
     "planet", "galaxy", "comet", "nebula", "cipher", "enigma", "puzzle", "riddle",
     "shadow", "mirror", "portal", "beacon", "anchor", "compass", "lantern", "prism"]
  else if difficulty == "hard" then some
    ["typescript", "javascript", "encryption", "cryptography", "algorithm", "infrastructure",
     "architecture", "authentication", "authorization", "vulnerability", "cybersecurity",
     "blockchain", "metamorphosis", "constellation", "synchronization", "transformation",
     "illumination", "orchestration", "denomination", "comprehension", "manifestation",
     "extraordinary", "revolutionary", "sophisticated", "kaleidoscope", "optimization",
     "crystallization", "configuration", "implementation", "parallelization", "serialization",
     "decentralization", "internationalization", "containerization", "virtualization",
     "obfuscation", "triangulation", "interpolation", "extrapolation", "approximation",
     "segmentation", "fragmentation", "concatenation", "regeneration", "degeneration"]
  else none

/-- Modelled from the spec: the English riddle bank.  The locale lookup
tables (`src/locale/en.json`, `src/locale/tr.json`) are not part of the
delivered sources; the spec describes them only as nonempty locale-keyed
`(question, answer)` tables, so representative entries stand in.  No theorem
depends on the entries. -/
def riddlesEn : List (String × String) :=
  [("What has keys but cannot open locks?", "piano"),
   ("What gets wetter as it dries?", "towel")]

/-- Modelled from the spec: the Turkish riddle bank (same remark). -/
def riddlesTr : List (String × String) :=
  [("Tuslari vardir ama kilit acamaz, nedir?", "piyano")]

/-- Modelled from the spec: the English logic bank (same remark). -/
def logicsEn : List (String × String) :=
  [("If all cats are animals, is every cat an animal?", "yes")]

/-- Modelled from the spec: the Turkish logic bank (same remark). -/
def logicsTr : List (String × String) :=
  [("Butun kediler hayvansa, her kedi hayvan midir?", "evet")]

/-- `RiddleBank.getRandom` / `LogicGenerator.getRandom` selection: a secure
32-bit draw modulo the bank size (`none` models the `TypeError` thrown when
the bank lookup failed for an unknown locale, handled by the caller). -/
def bankGetRandom (bank : List (String × String)) (st : GenState) :
    (String × String) × GenState :=
  let (u, st') := randU32 st
  (bank.getD (u % bank.length) ("", ""), st')

/-! ### Standard options and per-kind generation -/

/-- The standard generator options (strings, as stored by `processOptions`). -/
structure StdOpts where
  type : String
  difficulty : String
  locale : String

/-- `getLocale`: `standardOptions.locale || 'en'` (the empty string is the
only falsy string). -/
def getLocale (o : StdOpts) : String := if o.locale == "" then "en" else o.locale

/-- `generateMath`, with the resample-on-zero-divisor branch and the
retry-while-NaN recursion (fuelled; both branches are dead for the bands
this generator draws from, but are embedded faithfully). -/
def generateMath : Nat → String → GenState → Option (Challenge × GenState)
  | 0, _, _ => none
  | fuel + 1, difficulty, st =>
    let (num1, st1) := getRandomNumber difficulty st
    let (num2a, st2) := getRandomNumber difficulty st1
    let (op, st3) := getRandomOperator st2
    let (num2, st4) :=
      if op == "/" && num2a == 0 then
        let (m, st') := getRandomNumber difficulty st3
        (m + 1, st')
      else (num2a, st3)
    let question := Nat.repr num1 ++ " " ++ op ++ " " ++ Nat.repr num2
    let answer := calculateMath num1 op num2
    if answer = NumV.nan then generateMath fuel difficulty st4
    else createChallenge (fuel + 1) "math" question (.num answer) [] st4

/-- `generateText`: the random string is both question and answer. -/
def generateText (fuel : Nat) (difficulty : String) (st : GenState) :
    Option (Challenge × GenState) :=
  let (text, st1) := generateRandomString difficulty st
  createChallenge fuel "text" text (.str text) [] st1

/-- `generateRiddle` (the difficulty argument is accepted and ignored by the
bank, as in the source). -/
def generateRiddle (fuel : Nat) (locale : String) (st : GenState) :
    Option (Challenge × GenState) :=
  match (if locale == "en" then some riddlesEn
         else if locale == "tr" then some riddlesTr else none) with
  | none => none
  | some bank =>
    let ((q, a), st1) := bankGetRandom bank st
    createChallenge fuel "riddle" q (.str a) [] st1

/-- `generateLogic`. -/
def generateLogic (fuel : Nat) (locale : String) (st : GenState) :
    Option (Challenge × GenState) :=
  match (if locale == "en" then some logicsEn
         else if locale == "tr" then some logicsTr else none) with
  | none => none
  | some bank =>
    let ((q, a), st1) := bankGetRandom bank st
    createChallenge fuel "logic" q (.str a) [] st1

/-- `ToInt32` of an unsigned 32-bit value (operand conversion of `>>`). -/
def toInt32 (u : Nat) : Int := if u < 2 ^ 31 then (u : Int) else (u : Int) - 2 ^ 32

/-- An integer's `toString()`. -/
def intToStr (i : Int) : String := numToString ((i : ℚ))

/-- `SequenceGenerator.generate`.  The easy band computes the step as
`((u >> 8) % 3) + 1` with JavaScript's signed shift (arithmetic, i.e. floor
division) and sign-of-dividend remainder, embedded via `Int.fdiv` and
`Int.tmod`.  The medium band's out-of-bounds guard is unreachable
(`start ≤ 3` gives `nextIndex ≤ 9`) but embedded. -/
def generateSequence (fuel : Nat) (difficulty : String) (st : GenState) :
    Option (Challenge × GenState) :=
  if difficulty == "easy" then
    let (u, st1) := randU32 st
    let start : Int := (u % 5 : Nat) + 1
    let step : Int := (Int.tmod (Int.fdiv (toInt32 u) 256) 3) + 1
    let question := intToStr start ++ ", " ++ intToStr (start + step) ++ ", " ++
      intToStr (start + 2 * step) ++ ", ?"
    createChallenge fuel "sequence" question (.num (.finite ((start + 3 * step : Int) : ℚ))) [] st1
  else if difficulty == "medium" then
    let letters := ["A", "B", "C", "D", "E", "F", "G", "H", "I", "J"]
    let (u, st1) := randU32 st
    let start := u % 4
    let question := letters.getD start "" ++ ", " ++ letters.getD (start + 2) "" ++ ", " ++
      letters.getD (start + 4) "" ++ ", ?"
    if start + 6 ≥ letters.length then
      createChallenge fuel "sequence" question (.str "?") [] st1
    else
      createChallenge fuel "sequence" question (.str (letters.getD (start + 6) "")) [] st1
  else
    createChallenge fuel "sequence" "1, 1, 2, 3, ?" (.num (.finite 5)) [] st

/-- `ScrambleGenerator.generate`: pick the word (easy: first ten, medium:
whole list, hard: a fixed word; the normalized draw can reach the list
length itself only at `u = 0xFFFFFFFF`, where the source would throw —
modelled as `none`), then shuffle. -/
def generateScramble (fuel : Nat) (difficulty : String) (st : GenState) :
    Option (Challenge × GenState) :=
  let (u, st1) := randU32 st
  let word? :=
    if difficulty == "easy" then scrambleWords.get? (u * 10 / 4294967295)
    else if difficulty == "medium" then scrambleWords.get? (u * 20 / 4294967295)
    else some "typescript"
  match word? with
  | none => none
  | some word =>
    let (scrambled, st2) := scrambleWord word st1
    createChallenge fuel "scramble" scrambled (.str word) [] st2

/-- `ReverseGenerator.generate`: the word index is
`Math.floor(Math.random() * pool.length)` — the only draw in the whole
issuer that comes from `Math.random()` rather than the secure stream. -/
def generateReverse (fuel : Nat) (difficulty : String) (st : GenState) :
    Option (Challenge × GenState) :=
  match reverseWordPool difficulty with
  | none => none
  | some pool =>
    let (k, st1) := nextMathRandom st
    let text := pool.getD (k * pool.length / 2 ^ 53) ""
    createChallenge fuel "reverse" (String.mk text.data.reverse) (.str text) [] st1

/-- `CustomQuestionGenerator.generate()` as called by the issuer (no
difficulty argument, so the candidate set is the whole question list);
`selectRandom` returns an empty pair on an empty list. -/
def selectRandomCustom (qs : List (String × String)) (st : GenState) :
    (String × String) × GenState :=
  if qs.isEmpty then (("", ""), st)
  else
    let (u, st') := randU32 st
    (qs.getD (u % qs.length) ("", ""), st')

/-- `generateCustom`. -/
def generateCustom (fuel : Nat) (qs : List (String × String)) (st : GenState) :
    Option (Challenge × GenState) :=
  let ((q, a), st1) := selectRandomCustom qs st
  createChallenge fuel "custom" q (.str a) [] st1

/-- `generateMulti`: a math step, a riddle step, then the wrapper record
with the fixed instruction question and an empty answer. -/
def generateMulti (fuel : Nat) (o : StdOpts) (st : GenState) :
    Option (Challenge × GenState) :=
  match generateMath fuel o.difficulty st with
  | none => none
  | some (step1, st1) =>
    match generateRiddle fuel (getLocale o) st1 with
    | none => none
    | some (step2, st2) =>
      createChallenge fuel "multi" "Complete two steps" (.str "") [step1, step2] st2

/-- Generator configuration: standard options or validated custom questions. -/
inductive GenCfg where
  | standard (o : StdOpts)
  | custom (questions : List (String × String))

/-- `CaptchaGenerator.generate`: dispatch on the configured type; any
unrecognized type falls through to the mixed generator, which draws one of
the seven single kinds with one secure byte and wraps the generated
challenge under type `mixed` with fresh security fields.  The source
implements mixed by temporarily mutating `standardOptions.type` and
restoring it; single-threaded, that equals the recursive call with the
drawn sub-kind used here. -/
def generate : Nat → GenCfg → GenState → Option (Challenge × GenState)
  | 0, _, _ => none
  | fuel + 1, .custom qs, st => generateCustom (fuel + 1) qs st
  | fuel + 1, .standard o, st =>
    if o.type == "math" then generateMath (fuel + 1) o.difficulty st
    else if o.type == "text" then generateText (fuel + 1) o.difficulty st
    else if o.type == "riddle" then generateRiddle (fuel + 1) (getLocale o) st
    else if o.type == "sequence" then generateSequence (fuel + 1) o.difficulty st
    else if o.type == "scramble" then generateScramble (fuel + 1) o.difficulty st
    else if o.type == "logic" then generateLogic (fuel + 1) (getLocale o) st
    else if o.type == "reverse" then generateReverse (fuel + 1) o.difficulty st
    else if o.type == "multi" then generateMulti (fuel + 1) o st
    else
      let (bs, st1) := takeBytes 1 st
      let sub := ["math", "text", "riddle", "sequence", "scramble", "logic",
        "reverse"].getD (bs.getD 0 0 % 7) "math"
      match generate fuel (.standard { o with type := sub }) st1 with
      | none => none
      | some (ch, st2) => createChallenge (fuel + 1) "mixed" ch.question ch.answer ch.steps st2

/-- Issue `n` challenges in sequence from one generator instance. -/
def issueSeq : Nat → Nat → GenCfg → GenState → Option (List Challenge × GenState)
  | 0, _, _, st => some ([], st)
  | n + 1, fuel, cfg, st =>
    match generate fuel cfg st with
    | none => none
    | some (ch, st1) =>
      match issueSeq n fuel cfg st1 with
      | none => none
      | some (chs, st2) => some (ch :: chs, st2)

/-! ## Bridging the packed accumulator to the per-index description -/

theorem getB_setB_self (h i v : Nat) : getB (setB h i v) i = v % 256 := by
  unfold getB setB
  have hpos : 0 < 256 ^ i := Nat.pos_pow_of_pos i (by norm_num)
  have hrw : h % 256 ^ i + v % 256 * 256 ^ i + h / 256 ^ (i + 1) * 256 ^ (i + 1) =
      h % 256 ^ i + (v % 256 + h / 256 ^ (i + 1) * 256) * 256 ^ i := by
    rw [pow_succ]
    ring
  rw [hrw, Nat.add_mul_div_right _ _ hpos, Nat.div_eq_of_lt (Nat.mod_lt _ hpos), zero_add,
    Nat.add_mul_mod_self_right, Nat.mod_mod_of_dvd _ (dvd_refl 256)]

theorem getB_setB_ne (h i j v : Nat) (hne : j ≠ i) : getB (setB h i v) j = getB h j := by
  unfold getB setB
  rcases Nat.lt_or_ge j i with hj | hj
  · -- below the written byte: the value modulo 256 ^ (j + 1) is unchanged
    have hd1 : (256 : Nat) ^ (j + 1) ∣ 256 ^ i := pow_dvd_pow 256 (by omega)
    have hd2 : (256 : Nat) ^ (j + 1) ∣ 256 ^ (i + 1) := pow_dvd_pow 256 (by omega)
    have key : ∀ a : Nat, a / 256 ^ j % 256 = a % 256 ^ (j + 1) / 256 ^ j := by
      intro a
      rw [pow_succ, Nat.mod_mul_right_div_self]
    rw [key, key]
    congr 1
    rw [Nat.add_mod, Nat.add_mod (h % 256 ^ i)]
    rw [Nat.mod_mod_of_dvd _ hd1]
    rw [(Nat.mod_eq_zero_of_dvd (Dvd.dvd.mul_left hd1 _) : v % 256 * 256 ^ i % 256 ^ (j + 1) = 0)]
    rw [(Nat.mod_eq_zero_of_dvd (Dvd.dvd.mul_left hd2 _) : h / 256 ^ (i + 1) * 256 ^ (i + 1) % 256 ^ (j + 1) = 0)]
    simp [Nat.mod_mod_of_dvd]
  · -- above the written byte: the value divided by 256 ^ (i + 1) is unchanged
    have hij : i + 1 ≤ j := by omega
    have hpos : 0 < 256 ^ i := Nat.pos_pow_of_pos i (by norm_num)
    have hlowlt : h % 256 ^ i + v % 256 * 256 ^ i < 256 ^ (i + 1) := by
      have h1 : h % 256 ^ i < 256 ^ i := Nat.mod_lt _ hpos
      have h2 : v % 256 * 256 ^ i ≤ 255 * 256 ^ i :=
        Nat.mul_le_mul_right _ (by omega : v % 256 ≤ 255)
      have h3 : (256 : Nat) ^ (i + 1) = 256 * 256 ^ i := by rw [pow_succ]; ring
      omega
    have hdiv : (h % 256 ^ i + v % 256 * 256 ^ i + h / 256 ^ (i + 1) * 256 ^ (i + 1)) /
        256 ^ (i + 1) = h / 256 ^ (i + 1) := by
      rw [Nat.add_mul_div_right _ _ (Nat.pos_pow_of_pos (i + 1) (by norm_num)),
        Nat.div_eq_of_lt hlowlt, zero_add]
    have split : ∀ a : Nat, a / 256 ^ j = a / 256 ^ (i + 1) / 256 ^ (j - (i + 1)) := by
      intro a
      rw [Nat.div_div_eq_div_mul, ← pow_add]
      congr 2
      omega
    rw [split, hdiv, ← split]

theorem getB_zero (i : Nat) : getB 0 i = 0 := by
  unfold getB
  simp

/-- One initial-distribution step commutes with the per-index description. -/
theorem hashInitStep_corr (h : Nat) (f : Fin 32 → Nat)
    (hr : ∀ j : Fin 32, getB h (j : Nat) = f j) (i b : Nat) :
    ∀ j : Fin 32, getB (hashInitStep h i b) (j : Nat) = amendedInitStep f i b j := by
  intro j
  unfold hashInitStep amendedInitStep
  simp only []
  by_cases h2 : (j : Nat) = i * 7 % 32
  · have hfin2 : j = (⟨i * 7 % 32, Nat.mod_lt _ (by norm_num)⟩ : Fin 32) := Fin.ext h2
    rw [h2, getB_setB_self, hfin2, Function.update_same]
    rw [← hr ⟨i * 7 % 32, Nat.mod_lt _ (by norm_num)⟩]
    simp [Nat.mod_mod_of_dvd]
  · have hfin2 : j ≠ (⟨i * 7 % 32, Nat.mod_lt _ (by norm_num)⟩ : Fin 32) := by
      intro hc
      exact h2 (congrArg Fin.val hc)
    rw [getB_setB_ne _ _ _ _ h2, Function.update_noteq hfin2]
    by_cases h1 : (j : Nat) = i % 32
    · have hfin1 : j = (⟨i % 32, Nat.mod_lt _ (by norm_num)⟩ : Fin 32) := Fin.ext h1
      rw [h1, getB_setB_self, hfin1, Function.update_same]
      rw [← hr ⟨i % 32, Nat.mod_lt _ (by norm_num)⟩]
    · have hfin1 : j ≠ (⟨i % 32, Nat.mod_lt _ (by norm_num)⟩ : Fin 32) := by
        intro hc
        exact h1 (congrArg Fin.val hc)
      rw [getB_setB_ne _ _ _ _ h1, Function.update_noteq hfin1]
      exact hr j

/-- One diffusion update commutes with the per-index description (for the
in-range indices the round loop produces). -/
theorem diffuseStep_corr (round : Nat) (h : Nat) (f : Fin 32 → Nat)
    (hr : ∀ j : Fin 32, getB h (j : Nat) = f j) (i : Nat) (hi : i < 32) :
    ∀ j : Fin 32, getB (diffuseStep round h i) (j : Nat) = amendedDiffuseStep round f i j := by
  intro j
  unfold diffuseStep amendedDiffuseStep
  simp only []
  have hmod : i % 32 = i := Nat.mod_eq_of_lt hi
  by_cases hji : (j : Nat) = i
  · have hfin : j = (⟨i % 32, Nat.mod_lt _ (by norm_num)⟩ : Fin 32) :=
      Fin.ext (show (j : Nat) = i % 32 by omega)
    rw [hji, getB_setB_self, hfin, Function.update_same]
    rw [← hr ⟨(i + 31) % 32, Nat.mod_lt _ (by norm_num)⟩,
      ← hr ⟨i % 32, Nat.mod_lt _ (by norm_num)⟩,
      ← hr ⟨(i + 1) % 32, Nat.mod_lt _ (by norm_num)⟩]
    simp only [hmod]
    simp [Nat.mod_mod_of_dvd]
  · have hfin : j ≠ (⟨i % 32, Nat.mod_lt _ (by norm_num)⟩ : Fin 32) := by
      intro hc
      apply hji
      have h3 : (j : Nat) = i % 32 := congrArg Fin.val hc
      omega
    rw [getB_setB_ne _ _ _ _ hji, Function.update_noteq hfin]
    exact hr j

/-- The initial distribution commutes with the per-index description. -/
theorem hashAccum_corr : ∀ (ps : List (Nat × Nat)) (h : Nat) (f : Fin 32 → Nat),
    (∀ j : Fin 32, getB h (j : Nat) = f j) →
    ∀ j : Fin 32,
      getB (ps.foldl (fun h p => hashInitStep h p.1 p.2) h) (j : Nat) =
        (ps.foldl (fun f p => amendedInitStep f p.1 p.2) f) j
  | [], _, _, hr => hr
  | p :: ps, h, f, hr => by
    simpa using hashAccum_corr ps (hashInitStep h p.1 p.2) (amendedInitStep f p.1 p.2)
      (hashInitStep_corr h f hr p.1 p.2)

/-- A diffusion round commutes with the per-index description. -/
theorem diffuseFold_corr : ∀ (is : List Nat), (∀ i ∈ is, i < 32) →
    ∀ (round h : Nat) (f : Fin 32 → Nat), (∀ j : Fin 32, getB h (j : Nat) = f j) →
    ∀ j : Fin 32,
      getB (is.foldl (diffuseStep round) h) (j : Nat) =
        (is.foldl (amendedDiffuseStep round) f) j
  | [], _, _, _, _, hr => hr
  | i :: is, hlt, round, h, f, hr => by
    simpa using diffuseFold_corr is (fun x hx => hlt x (List.mem_cons_of_mem _ hx)) round
      (diffuseStep round h i) (amendedDiffuseStep round f i)
      (diffuseStep_corr round h f hr i (hlt i (List.mem_cons_self _ _)))

/-- All sixteen rounds commute with the per-index description. -/
theorem diffuseRounds_corr : ∀ (rs : List Nat) (h : Nat) (f : Fin 32 → Nat),
    (∀ j : Fin 32, getB h (j : Nat) = f j) →
    ∀ j : Fin 32,
      getB (rs.foldl diffuseRound h) (j : Nat) =
        (rs.foldl (fun f round => (List.range 32).foldl (amendedDiffuseStep round) f) f) j
  | [], _, _, hr => hr
  | r :: rs, h, f, hr => by
    simpa using diffuseRounds_corr rs (diffuseRound h r)
      ((List.range 32).foldl (amendedDiffuseStep r) f)
      (diffuseFold_corr (List.range 32) (fun x hx => List.mem_range.mp hx) r h f hr)

/-- The bridge: the source digest (packed accumulator) computes exactly the
amended per-index reference algorithm. -/
theorem computeHashBytes_eq_amendedDigest (data : List Nat) :
    computeHashBytes data = amendedDigest data := by
  have core : ∀ j : Fin 32,
      getB (computeHashSync data) (j : Nat) =
        ((List.range 16).foldl
          (fun f round => (List.range 32).foldl (amendedDiffuseStep round) f)
          (data.enum.foldl (fun h p => amendedInitStep h p.1 p.2) (fun _ => 0))) j := by
    intro j
    unfold computeHashSync hashAccum
    exact diffuseRounds_corr (List.range 16) _ _
      (hashAccum_corr data.enum 0 (fun _ => 0) (fun j => getB_zero _)) j
  unfold computeHashBytes amendedDigest
  simp only []
  apply List.ext_getElem
  · simp
  · intro n h1 h2
    simp only [List.getElem_map, List.getElem_range, List.getElem_finRange]
    exact core ⟨n, by simpa using h1⟩

/-! ## Nonce bookkeeping invariants -/

theorem pickNonce_spec : ∀ (fuel : Nat) (st : GenState) (n : String) (st' : GenState),
    pickNonce fuel st = some (n, st') →
    n ∉ st.usedNonces ∧ st'.usedNonces = st.usedNonces ∧ st'.now = st.now := by
  intro fuel
  induction fuel with
  | zero => intro st n st' h; simp [pickNonce] at h
  | succ fuel ih =>
    intro st n st' h
    simp only [pickNonce, generateNonce, takeBytes] at h
    split at h
    · have hrec := ih _ _ _ h
      exact hrec
    · rename_i hmem
      cases h
      exact ⟨hmem, rfl, rfl⟩

theorem createChallenge_spec {fuel : Nat} {t q : String} {a : AnsV} {steps : List Challenge}
    {st : GenState} {ch : Challenge} {st' : GenState}
    (h : createChallenge fuel t q a steps st = some (ch, st')) :
    ch.nonce ∉ st.usedNonces ∧ st'.usedNonces = ch.nonce :: st.usedNonces ∧
    st'.now = st.now ∧ ch.type = t ∧
    ch.expiry = NumV.finite ((st.now + 5 * 60 * 1000 : Nat) : ℚ) := by
  unfold createChallenge at h
  cases hp : pickNonce fuel st with
  | none => rw [hp] at h; cases h
  | some p =>
    obtain ⟨n, st1⟩ := p
    rw [hp] at h
    obtain ⟨h1, h2, h3⟩ := pickNonce_spec fuel st n st1 hp
    simp only [generateSalt, takeBytes] at h
    cases h
    refine ⟨h1, ?_, ?_, rfl, ?_⟩
    · show n :: st1.usedNonces = n :: st.usedNonces
      rw [h2]
    · show st1.now = st.now
      exact h3
    · show NumV.finite ((st1.now + 5 * 60 * 1000 : Nat) : ℚ) =
        NumV.finite ((st.now + 5 * 60 * 1000 : Nat) : ℚ)
      rw [h3]

/-- The nonce-freshness contract of one issuing computation: relative to a
set of already-emitted nonces, a successful result carries a nonce outside
that set, records it, and only grows the set. -/
def NonceInv (used : List String) (out : Option (Challenge × GenState)) : Prop :=
  ∀ ch st', out = some (ch, st') →
    ch.nonce ∉ used ∧ ch.nonce ∈ st'.usedNonces ∧ used ⊆ st'.usedNonces

theorem NonceInv.of_createChallenge {fuel : Nat} {t q : String} {a : AnsV}
    {steps : List Challenge} {st : GenState} {used : List String}
    (hu : st.usedNonces = used) :
    NonceInv used (createChallenge fuel t q a steps st) := by
  intro ch st' h
  obtain ⟨h1, h2, _, _, _⟩ := createChallenge_spec h
  rw [hu] at h1 h2
  exact ⟨h1, by rw [h2]; exact List.mem_cons_self _ _,
    fun x hx => by rw [h2]; exact List.mem_cons_of_mem _ hx⟩

theorem NonceInv.weaken {used mid : List String} {out : Option (Challenge × GenState)}
    (hsub : used ⊆ mid) (hi : NonceInv mid out) : NonceInv used out := by
  intro ch st' h
  obtain ⟨h1, h2, h3⟩ := hi ch st' h
  exact ⟨fun hm => h1 (hsub hm), h2, fun x hx => h3 (hsub hx)⟩

/-- Closing step shared by the composite generators: the final
`createChallenge` runs in a state whose nonce set contains the starting
set. -/
theorem NonceInv.from_spec {used : List String} {st2 : GenState} {ch : Challenge}
    {st' : GenState} {fuel : Nat} {t q : String} {a : AnsV} {steps : List Challenge}
    (h : createChallenge fuel t q a steps st2 = some (ch, st'))
    (hsub : used ⊆ st2.usedNonces) :
    ch.nonce ∉ used ∧ ch.nonce ∈ st'.usedNonces ∧ used ⊆ st'.usedNonces := by
  obtain ⟨h1, h2, _⟩ := createChallenge_spec h
  exact ⟨fun hm => h1 (hsub hm), by rw [h2]; exact List.mem_cons_self _ _,
    fun x hx => by rw [h2]; exact List.mem_cons_of_mem _ (hsub hx)⟩

theorem getRandomNumber_used (d : String) (st : GenState) :
    ((getRandomNumber d st).2).usedNonces = st.usedNonces := by
  unfold getRandomNumber randU32 takeBytes
  dsimp only
  split
  · rfl
  · split
    · rfl
    · rfl

theorem generateMath_nonceInv : ∀ (fuel : Nat) (d : String) (st : GenState),
    NonceInv st.usedNonces (generateMath fuel d st) := by
  intro fuel
  induction fuel with
  | zero => intro d st ch st' h; simp [generateMath] at h
  | succ fuel ih =>
    intro d st ch st' h
    unfold generateMath at h
    split at h
    rename_i num1 st1 hA
    split at h
    rename_i num2a st2 hB
    split at h
    rename_i op st3 hC
    split at h
    rename_i num2 st4 hD
    have hu1 : st1.usedNonces = st.usedNonces := by
      rw [show st1 = (getRandomNumber d st).2 from (congrArg Prod.snd hA).symm,
        getRandomNumber_used]
    have hu2 : st2.usedNonces = st.usedNonces := by
      rw [show st2 = (getRandomNumber d st1).2 from (congrArg Prod.snd hB).symm,
        getRandomNumber_used, hu1]
    have hu3 : st3.usedNonces = st.usedNonces := by
      rw [show st3 = (getRandomOperator st2).2 from (congrArg Prod.snd hC).symm]
      exact hu2
    have hu4 : st4.usedNonces = st.usedNonces := by
      revert hD
      split
      · intro hD
        rw [show st4 = ((getRandomNumber d st3).1 + 1, (getRandomNumber d st3).2).2 from
          (congrArg Prod.snd hD).symm, getRandomNumber_used, hu3]
      · intro hD
        rw [show st4 = st3 from (congrArg Prod.snd hD).symm]
        exact hu3
    dsimp only at h
    split at h
    · have hrec := ih d st4 ch st' h
      rw [hu4] at hrec
      exact hrec
    · exact NonceInv.from_spec h (by rw [hu4]; exact fun x hx => hx)

theorem generateText_nonceInv (fuel : Nat) (d : String) (st : GenState) :
    NonceInv st.usedNonces (generateText fuel d st) := by
  unfold generateText
  dsimp only [generateRandomString, takeBytes]
  exact NonceInv.of_createChallenge rfl

theorem generateRiddle_nonceInv (fuel : Nat) (l : String) (st : GenState) :
    NonceInv st.usedNonces (generateRiddle fuel l st) := by
  unfold generateRiddle
  split
  · intro ch st' h; cases h
  · dsimp only [bankGetRandom, randU32, takeBytes]
    exact NonceInv.of_createChallenge rfl

theorem generateLogic_nonceInv (fuel : Nat) (l : String) (st : GenState) :
    NonceInv st.usedNonces (generateLogic fuel l st) := by
  unfold generateLogic
  split
  · intro ch st' h; cases h
  · dsimp only [bankGetRandom, randU32, takeBytes]
    exact NonceInv.of_createChallenge rfl

theorem generateSequence_nonceInv (fuel : Nat) (d : String) (st : GenState) :
    NonceInv st.usedNonces (generateSequence fuel d st) := by
  unfold generateSequence
  dsimp only [randU32, takeBytes]
  split
  · exact NonceInv.of_createChallenge rfl
  · split
    · split
      · exact NonceInv.of_createChallenge rfl
      · exact NonceInv.of_createChallenge rfl
    · exact NonceInv.of_createChallenge rfl

theorem scrambleLoop_usedNonces : ∀ (is : List Nat) (arr : List Char) (st : GenState),
    (scrambleLoop is arr st).2.usedNonces = st.usedNonces := by
  intro is
  induction is with
  | nil => intro arr st; rfl
  | cons i rest ih =>
    intro arr st
    simp only [scrambleLoop, randU32, takeBytes]
    exact ih _ _

theorem generateScramble_nonceInv (fuel : Nat) (d : String) (st : GenState) :
    NonceInv st.usedNonces (generateScramble fuel d st) := by
  unfold generateScramble
  dsimp only [randU32, takeBytes]
  split
  · intro ch st' h; cases h
  · rename_i word hw
    unfold scrambleWord
    refine NonceInv.of_createChallenge ?_
    exact scrambleLoop_usedNonces _ _ _

theorem generateReverse_nonceInv (fuel : Nat) (d : String) (st : GenState) :
    NonceInv st.usedNonces (generateReverse fuel d st) := by
  unfold generateReverse
  split
  · intro ch st' h; cases h
  · dsimp only [nextMathRandom]
    exact NonceInv.of_createChallenge rfl

theorem generateCustom_nonceInv (fuel : Nat) (qs : List (String × String)) (st : GenState) :
    NonceInv st.usedNonces (generateCustom fuel qs st) := by
  unfold generateCustom
  dsimp only [selectRandomCustom, randU32, takeBytes]
  split
  · exact NonceInv.of_createChallenge rfl
  · exact NonceInv.of_createChallenge rfl

theorem generateMulti_nonceInv (fuel : Nat) (o : StdOpts) (st : GenState) :
    NonceInv st.usedNonces (generateMulti fuel o st) := by
  intro ch st' h
  unfold generateMulti at h
  split at h
  · cases h
  · rename_i p1 s1 st1 h1
    split at h
    · cases h
    · rename_i p2 s2 st2 h2
      have hsub1 : st.usedNonces ⊆ st1.usedNonces :=
        (generateMath_nonceInv fuel o.difficulty st s1 st1 h1).2.2
      have hsub2 : st1.usedNonces ⊆ st2.usedNonces :=
        (generateRiddle_nonceInv fuel (getLocale o) st1 s2 st2 h2).2.2
      exact NonceInv.from_spec h (hsub1.trans hsub2)

theorem generate_nonceInv : ∀ (fuel : Nat) (cfg : GenCfg) (st : GenState),
    NonceInv st.usedNonces (generate fuel cfg st) := by
  intro fuel
  induction fuel with
  | zero => intro cfg st ch st' h; simp [generate] at h
  | succ fuel ih =>
    intro cfg st
    cases cfg with
    | custom qs => exact generateCustom_nonceInv _ qs st
    | standard o =>
      show NonceInv _ _
      unfold generate
      split
      · exact generateMath_nonceInv _ o.difficulty st
      · split
        · exact generateText_nonceInv _ o.difficulty st
        · split
          · exact generateRiddle_nonceInv _ (getLocale o) st
          · split
            · exact generateSequence_nonceInv _ o.difficulty st
            · split
              · exact generateScramble_nonceInv _ o.difficulty st
              · split
                · exact generateLogic_nonceInv _ (getLocale o) st
                · split
                  · exact generateReverse_nonceInv _ o.difficulty st
                  · split
                    · exact generateMulti_nonceInv _ o st
                    · intro ch st' h
                      dsimp only [takeBytes] at h
                      split at h
                      · cases h
                      · rename_i p cS sS hS
                        have hsubs := (ih _ _ cS sS hS).2.2
                        exact NonceInv.from_spec h hsubs

theorem issueSeq_spec : ∀ (n fuel : Nat) (cfg : GenCfg) (st : GenState)
    (chs : List Challenge) (st' : GenState),
    issueSeq n fuel cfg st = some (chs, st') →
    (∀ ch ∈ chs, ch.nonce ∈ st'.usedNonces) ∧ st.usedNonces ⊆ st'.usedNonces ∧
    (∀ ch ∈ chs, ch.nonce ∉ st.usedNonces) ∧
    chs.Pairwise (fun a b => a.nonce ≠ b.nonce) := by
  intro n
  induction n with
  | zero =>
    intro fuel cfg st chs st' h
    unfold issueSeq at h
    cases h
    exact ⟨by simp, fun x hx => hx, by simp, List.Pairwise.nil⟩
  | succ n ih =>
    intro fuel cfg st chs st' h
    unfold issueSeq at h
    split at h
    · cases h
    · rename_i p1 ch1 st1 heq1
      split at h
      · cases h
      · rename_i p2 rest st2 heq2
        cases h
        obtain ⟨hni, hmem, hsub⟩ := generate_nonceInv fuel cfg st ch1 st1 heq1
        obtain ⟨hall, hsub2, hnotin, hpw⟩ := ih fuel cfg st1 rest st' heq2
        refine ⟨?_, hsub.trans hsub2, ?_, ?_⟩
        · intro c hc
          rcases List.mem_cons.mp hc with rfl | hc'
          · exact hsub2 hmem
          · exact hall c hc'
        · intro c hc
          rcases List.mem_cons.mp hc with rfl | hc'
          · exact hni
          · exact fun hm => hnotin c hc' (hsub hm)
        · refine List.Pairwise.cons ?_ hpw
          intro b hb heqn
          exact hnotin b hb (heqn ▸ hmem)

/-! ## Validator shape lemmas -/

/-- The step loop succeeds exactly when every parsed element is a string
validating against its positional step (under the call-site guarantee of
equal lengths). -/
theorem validateSteps_eq_true_iff (parse : String → Option Json) :
    ∀ (ss : List Challenge) (xs : List Json), ss.length = xs.length →
    (validateSteps parse ss xs = true ↔
      List.Forall₂ (fun st x => ∃ s, x = Json.str s ∧ validate parse st s = true) ss xs) := by
  intro ss
  induction ss with
  | nil =>
    intro xs hlen
    cases xs with
    | nil => simp [validateSteps]
    | cons x xs => simp at hlen
  | cons step ss ih =>
    intro xs hlen
    cases xs with
    | nil => simp at hlen
    | cons x xs =>
      cases x with
      | str s =>
        simp only [validateSteps, Bool.and_eq_true, List.forall₂_cons,
          ih xs (by simpa using hlen)]
        constructor
        · rintro ⟨hv, hrest⟩
          exact ⟨⟨s, rfl, hv⟩, hrest⟩
        · rintro ⟨⟨s', hs', hv⟩, hrest⟩
          cases hs'
          exact ⟨hv, hrest⟩
      | null => simp [validateSteps]
      | bool b => simp [validateSteps]
      | num q => simp [validateSteps]
      | arr ys => simp [validateSteps]

/-! ## Generated challenge types -/

theorem generateMath_type : ∀ (fuel : Nat) (d : String) (st : GenState)
    (ch : Challenge) (st' : GenState),
    generateMath fuel d st = some (ch, st') → ch.type = "math" := by
  intro fuel
  induction fuel with
  | zero => intro d st ch st' h; simp [generateMath] at h
  | succ fuel ih =>
    intro d st ch st' h
    unfold generateMath at h
    split at h
    rename_i num1 st1 hA
    split at h
    rename_i num2a st2 hB
    split at h
    rename_i op st3 hC
    split at h
    rename_i num2 st4 hD
    dsimp only at h
    split at h
    · exact ih d st4 ch st' h
    · exact (createChallenge_spec h).2.2.2.1

theorem generate_math_type (fuel : Nat) (o : StdOpts) (st : GenState)
    (ch : Challenge) (st' : GenState)
    (h : generate fuel (.standard o) st = some (ch, st')) (ht : o.type = "math") :
    ch.type = "math" := by
  cases fuel with
  | zero => simp [generate] at h
  | succ fuel =>
    unfold generate at h
    rw [ht] at h
    simp only [beq_self_eq_true, if_true] at h
    exact generateMath_type _ _ _ _ _ h

theorem generate_unknown_type_mixed (fuel : Nat) (o : StdOpts) (st : GenState)
    (ch : Challenge) (st' : GenState)
    (h : generate fuel (.standard o) st = some (ch, st'))
    (hn : o.type ∉ ["math", "text", "riddle", "sequence", "scramble", "logic",
      "reverse", "multi"]) :
    ch.type = "mixed" := by
  cases fuel with
  | zero => simp [generate] at h
  | succ fuel =>
    simp only [List.mem_cons, List.not_mem_nil, or_false, not_or] at hn
    obtain ⟨h1, h2, h3, h4, h5, h6, h7, h8⟩ := hn
    unfold generate at h
    rw [show (o.type == "math") = false from beq_eq_false_iff_ne.mpr h1,
      show (o.type == "text") = false from beq_eq_false_iff_ne.mpr h2,
      show (o.type == "riddle") = false from beq_eq_false_iff_ne.mpr h3,
      show (o.type == "sequence") = false from beq_eq_false_iff_ne.mpr h4,
      show (o.type == "scramble") = false from beq_eq_false_iff_ne.mpr h5,
      show (o.type == "logic") = false from beq_eq_false_iff_ne.mpr h6,
      show (o.type == "reverse") = false from beq_eq_false_iff_ne.mpr h7,
      show (o.type == "multi") = false from beq_eq_false_iff_ne.mpr h8] at h
    simp only [if_false, Bool.false_eq_true] at h
    dsimp only [takeBytes] at h
    split at h
    · cases h
    · exact (createChallenge_spec h).2.2.2.1

/-! ## Raw-value shape lemmas -/

theorem jsTypeof_string_iff (v : JSVal) : jsTypeof v = "string" ↔ ∃ s, v = .str s := by
  cases v <;> simp [jsTypeof]

theorem jsTypeof_number_iff (v : JSVal) : jsTypeof v = "number" ↔ ∃ n, v = .num n := by
  cases v <;> simp [jsTypeof]

/-- `validate` unfolded on an arbitrary record: the gate-then-dispatch shape
of `CaptchaValidator.validate`. -/
theorem validate_eq (parse : String → Option Json) (ch : Challenge) (input : String) :
    validate parse ch input =
      (if !isValidInput input then false
       else if ch.type == "multi" then validateMulti parse ch input
       else if ch.type == "custom" then validateCustom ch input
       else if isNumericChallenge ch then validateNumeric ch input
       else validateText ch input) := by
  cases ch with
  | mk t q a n e ha s steps => rfl

/-- An all-fields-default record (used as an `Option.getD` fallback). -/
def defaultChallenge : Challenge := Challenge.mk "" "" (.str "") "" (.finite 0) "" "" []

/-- The challenge of a generator run (default record on failure). -/
def runCh (r : Option (Challenge × GenState)) : Challenge :=
  (r.map Prod.fst).getD defaultChallenge

/-- The final state of a generator run. -/
def runSt (r : Option (Challenge × GenState)) (d : GenState) : GenState :=
  (r.map Prod.snd).getD d

/-- A successful run equals `some` of its projections. -/
theorem run_some {r : Option (Challenge × GenState)} (hs : r.isSome = true) (d : GenState) :
    r = some (runCh r, runSt r d) := by
  cases r with
  | none => cases hs
  | some p => rfl

/-! ## The claims -/

set_option maxRecDepth 10000

/-- A concrete generator state: all-zero secure stream, all-zero
`Math.random` stream, empty nonce set, a fixed clock. -/
def zeroState : GenState :=
  { bytes := fun _ => 0, bpos := 0, mrand := fun _ => 0, mpos := 0,
    usedNonces := [], now := 1700000000000 }

/-- A concrete generator state with pairwise-distinct stream bytes. -/
def incState : GenState :=
  { bytes := fun i => i + 1, bpos := 0, mrand := fun _ => 0, mpos := 0,
    usedNonces := [], now := 1700000000000 }

/-- The standard math/easy options. -/
def mathOpts : StdOpts := { type := "math", difficulty := "easy", locale := "en" }

/-- The math/easy generator configuration. -/
def mathEasyCfg : GenCfg := .standard mathOpts

/-- A math/easy issuance over the all-zero stream: question `1 + 1`,
answer 2, nonce and salt all zero, digest committed with the issuer's
custom hash. -/
def c1Run : Option (Challenge × GenState) := generate 50 mathEasyCfg zeroState

/-- The challenge issued by `c1Run`. -/
def c1Challenge : Challenge := runCh c1Run

/-- C1: FALSIFIED — the issuer commits to the answer with the custom digest
of `src/utils/crypto.ts` while the verifier recomputes with Node's genuine
SHA-256 (`captchaValidator.ts` imports `createHash` from `'crypto'`), so
issuing a math/easy challenge and immediately verifying its true answer
`"2"` (unexpired, well-formed) returns `false`.  This contradicts the
repository's own tests and README, which expect the round trip to succeed. -/
theorem c1_issue_verify_roundtrip_fails :
    c1Run.isSome = true ∧
    c1Challenge.type = "math" ∧
    c1Challenge.question = "1 + 1" ∧
    c1Challenge.answer.toStr = "2" ∧
    c1Challenge.hashedAnswer = cryptoUtilsHashHex (c1Challenge.answer.toStr ++ c1Challenge.salt) ∧
    jsNowGt 1700000000000 c1Challenge.expiry = false ∧
    k9Validate jsonParse 1700000000000 c1Challenge c1Challenge.answer.toStr = false := by
  refine ⟨by decide, by decide, by decide, by decide, by decide, by decide, by decide⟩

/-- C2 counterexample: on the single byte `0x01` the digest of the code
differs from the spec's algorithm as literally transcribed (`specDigest`):
at byte position 0 the two accumulator indices coincide (`0 mod 32 =
0·7 mod 32`), and the code's fold overwrites the XOR using the pre-step
accumulator value, while the literal reading XORs first and folds the
updated value. -/
theorem c2_literal_spec_digest_mismatch : computeHashBytes [1] ≠ specDigest [1] := by decide

/-- C2 amended: the digest computes the reference algorithm with the two
clarifications the code forces — both per-byte updates read the pre-step
accumulator (so when `i mod 16 = 0` the fold overwrites the XOR), and the
16 diffusion rounds update bytes in place in increasing index order — and
the hex output is the byte-wise lowercase hex of the final accumulator. -/
theorem c2_digest_matches_amended_reference :
    (∀ data : List Nat, computeHashBytes data = amendedDigest data) ∧
    (∀ s : String, cryptoUtilsHashHex s = bytesToHex (amendedDigest (utf8Encode s))) := by
  refine ⟨computeHashBytes_eq_amendedDigest, ?_⟩
  intro s
  unfold cryptoUtilsHashHex
  rw [computeHashBytes_eq_amendedDigest]

/-- C3: an expired challenge is rejected regardless of the input
(`K9Guard.validate` returns `false` whenever `now > expiry`), and the
issuer always stamps `expiry = Date.now() + 5 * 60 * 1000`. -/
theorem c3_expired_rejected_and_fixed_ttl :
    (∀ (parse : String → Option Json) (now : Nat) (ch : Challenge) (input : String),
      jsNowGt now ch.expiry = true → k9Validate parse now ch input = false) ∧
    (∀ (fuel : Nat) (t q : String) (a : AnsV) (steps : List Challenge) (st : GenState)
      (ch : Challenge) (st' : GenState),
      createChallenge fuel t q a steps st = some (ch, st') →
      ch.expiry = NumV.finite ((st.now + 5 * 60 * 1000 : Nat) : ℚ)) := by
  constructor
  · intro parse now ch input h
    unfold k9Validate
    rw [h]
    rfl
  · intro fuel t q a steps st ch st' h
    exact (createChallenge_spec h).2.2.2.2

/-- A well-formed but already-expired record. -/
def expiredChallenge : Challenge :=
  Challenge.mk "math" "1 + 1" (.num (.finite 2)) "n" (.finite 5) "h" "s" []

/-- A concrete `createChallenge` run for the TTL conjunct of C3. -/
def c3Run : Option (Challenge × GenState) :=
  createChallenge 5 "math" "1 + 1" (.num (.finite 2)) [] zeroState

/-- Witness for C3 at concrete inputs: verification of the expired record
returns `false` even for the true answer, and a concrete issuance stamps
`now + 300000`. -/
theorem c3_witness :
    k9Validate jsonParse 10 expiredChallenge "2" = false ∧
    (runCh c3Run).expiry = NumV.finite ((zeroState.now + 5 * 60 * 1000 : Nat) : ℚ) := by
  constructor
  · exact c3_expired_rejected_and_fixed_ttl.1 jsonParse 10 expiredChallenge "2" (by decide)
  · exact c3_expired_rejected_and_fixed_ttl.2 5 "math" "1 + 1" (.num (.finite 2)) []
      zeroState (runCh c3Run) (runSt c3Run zeroState) (run_some (by decide) zeroState)

/-- C4: all challenges issued in sequence by one generator instance carry
pairwise-distinct nonces: each issuance draws from the secure stream,
regenerates while the draw collides with the session's nonce set, and
records the chosen nonce before returning. -/
theorem c4_issued_nonces_pairwise_distinct (n fuel : Nat) (cfg : GenCfg) (st : GenState)
    (chs : List Challenge) (st' : GenState)
    (h : issueSeq n fuel cfg st = some (chs, st')) :
    chs.Pairwise (fun a b => a.nonce ≠ b.nonce) :=
  (issueSeq_spec n fuel cfg st chs st' h).2.2.2

/-- Two consecutive math issuances over a concrete stream. -/
def c4Run : Option (List Challenge × GenState) := issueSeq 2 50 mathEasyCfg incState

/-- The challenge list of `c4Run`. -/
def c4List : List Challenge := (c4Run.map Prod.fst).getD []

/-- Witness for C4: the two concretely issued challenges have distinct
nonces. -/
theorem c4_witness : c4List.Pairwise (fun a b => a.nonce ≠ b.nonce) := by
  cases hx : c4Run with
  | none =>
    have hs : c4Run.isSome = true := by decide
    rw [hx] at hs
    cases hs
  | some p =>
    obtain ⟨chs0, st0⟩ := p
    have hc : c4List = chs0 := by
      unfold c4List
      rw [hx]
      rfl
    rw [hc]
    exact c4_issued_nonces_pairwise_distinct 2 50 mathEasyCfg incState chs0 st0 hx

/-- A syntactically well-formed multi record whose `steps` list is empty
(as can reach the verifier from a deserialized or adversarial source). -/
def emptyStepsMulti : Challenge :=
  Challenge.mk "multi" "Complete two steps" (.str "") "n" (.finite 1) "h" "s" []

/-- C5 counterexample: on a multi record with empty `steps` and the input
`"[]"`, parsing succeeds with an array of matching length and every element
(vacuously) verifies, yet `validateMulti` — and `validate` — return
`false`: the code rejects an empty or missing `steps` before parsing. -/
theorem c5_empty_steps_counterexample :
    emptyStepsMulti.type = "multi" ∧
    jsonParse "[]" = some (Json.arr []) ∧
    ([] : List Json).length = emptyStepsMulti.steps.length ∧
    List.Forall₂ (fun st x => ∃ s, x = Json.str s ∧ validate jsonParse st s = true)
      emptyStepsMulti.steps [] ∧
    validateMulti jsonParse emptyStepsMulti "[]" = false ∧
    validate jsonParse emptyStepsMulti "[]" = false := by
  refine ⟨rfl, by rfl, rfl, List.Forall₂.nil, by rfl, by rfl⟩

/-- C5 amended: on a multi challenge, `verify` is the input gate followed by
the multi check, and the multi check succeeds exactly when `steps` is
non-empty, the input parses as a JSON array of the same length, and every
element is a string verifying against its positional step — all-or-nothing.
(The non-empty-`steps` condition is the amendment: the code rejects an
empty or missing `steps` before parsing.) -/
theorem c5_multi_verification_amended (parse : String → Option Json) (ch : Challenge)
    (input : String) (hm : ch.type = "multi") :
    validate parse ch input = (isValidInput input && validateMulti parse ch input) ∧
    (validateMulti parse ch input = true ↔
      ch.steps ≠ [] ∧ ∃ xs, parse input = some (Json.arr xs) ∧
        xs.length = ch.steps.length ∧
        List.Forall₂ (fun st x => ∃ s, x = Json.str s ∧ validate parse st s = true)
          ch.steps xs) := by
  refine ⟨validate_multi_eq parse ch input hm, ?_⟩
  unfold validateMulti
  by_cases he : ch.steps.isEmpty
  · rw [if_pos he]
    simp [List.isEmpty_iff.mp he]
  · rw [if_neg he]
    have hne : ch.steps ≠ [] := fun hc => he (by simp [hc])
    cases hp : parse input with
    | none => simp
    | some j =>
      cases j with
      | arr xs =>
        dsimp only
        by_cases hlen : xs.length = ch.steps.length
        · rw [if_neg (by simp [hlen])]
          rw [validateSteps_eq_true_iff parse ch.steps xs hlen.symm]
          constructor
          · intro hfa
            exact ⟨hne, xs, rfl, hlen, hfa⟩
          · rintro ⟨_, xs', hxs', _, hfa⟩
            cases hxs'
            exact hfa
        · rw [if_pos (by simpa using hlen)]
          constructor
          · intro hc
            cases hc
          · rintro ⟨_, xs', hxs', hlen', _⟩
            cases hxs'
            exact absurd hlen' hlen
      | null => simp
      | bool b => simp
      | num q => simp
      | str s => simp

/-- A one-step multi record whose step commits to `"2"` with the verifier's
own SHA-256 digest. -/
def oneStepMulti : Challenge :=
  Challenge.mk "multi" "Complete two steps" (.str "") "n2" (.finite 99) "h" "s"
    [Challenge.mk "math" "1 + 1" (.num (.finite 2)) "n" (.finite 99)
      (sha256HexStr ("2" ++ "salty")) "salty" []]

/-- Witness for C5 at a concrete one-step record: the routing equation and
the characterization hold, and the characterized check concretely accepts
the JSON array of the step's true answer. -/
theorem c5_witness :
    (validate jsonParse oneStepMulti "[\"2\"]" =
      (isValidInput "[\"2\"]" && validateMulti jsonParse oneStepMulti "[\"2\"]") ∧
    (validateMulti jsonParse oneStepMulti "[\"2\"]" = true ↔
      oneStepMulti.steps ≠ [] ∧ ∃ xs, jsonParse "[\"2\"]" = some (Json.arr xs) ∧
        xs.length = oneStepMulti.steps.length ∧
        List.Forall₂ (fun st x => ∃ s, x = Json.str s ∧ validate jsonParse st s = true)
          oneStepMulti.steps xs)) ∧
    validateMulti jsonParse oneStepMulti "[\"2\"]" = true := by
  refine ⟨c5_multi_verification_amended jsonParse oneStepMulti "[\"2\"]" rfl, by decide⟩

/-- Two states with the same secure byte stream but different
`Math.random` streams (0 and one half). -/
def c6StateA : GenState :=
  { bytes := fun _ => 0, bpos := 0, mrand := fun _ => 0, mpos := 0,
    usedNonces := [], now := 1 }

/-- Same secure stream as `c6StateA`, different `Math.random` stream. -/
def c6StateB : GenState :=
  { bytes := fun _ => 0, bpos := 0, mrand := fun _ => 2 ^ 52, mpos := 0,
    usedNonces := [], now := 1 }

/-- The reverse/easy generator configuration. -/
def reverseCfg : GenCfg := .standard { type := "reverse", difficulty := "easy", locale := "en" }

/-- The reverse challenge issued under each `Math.random` stream. -/
def c6ChallengeA : Challenge := runCh (generate 50 reverseCfg c6StateA)

/-- The reverse challenge issued under the second `Math.random` stream. -/
def c6ChallengeB : Challenge := runCh (generate 50 reverseCfg c6StateB)

/-- C6: FALSIFIED for the reverse kind — with identical secure random byte
streams, changing only the `Math.random` stream changes the issued
challenge: the word is selected by `Math.floor(Math.random() *
pool.length)` (`reverseGenerator.ts`), consuming one `Math.random` draw and
no secure bytes, while the nonce and salt (drawn from the secure stream)
stay identical. -/
theorem c6_reverse_word_uses_math_random :
    c6StateA.bytes = c6StateB.bytes ∧ c6StateA.bpos = c6StateB.bpos ∧
    c6ChallengeA.question = "tac" ∧ c6ChallengeB.question = "eci" ∧
    c6ChallengeA.nonce = c6ChallengeB.nonce ∧ c6ChallengeA.salt = c6ChallengeB.salt ∧
    c6ChallengeA.question ≠ c6ChallengeB.question ∧
    (runSt (generate 50 reverseCfg c6StateA) c6StateA).mpos = 1 ∧
    (runSt (generate 50 reverseCfg c6StateA) c6StateA).bpos = 24 := by
  exact ⟨rfl, rfl, by decide, by decide, by decide, by decide, by decide, by decide, by decide⟩

/-- A configuration object with an invalid (but truthy) `type`. -/
def bananaOptions : JSVal :=
  .obj [("type", .str "banana"), ("difficulty", .str "medium"), ("locale", .str "en")]

/-- The `type` component of processed standard options. -/
def procType : ProcOpts → JSVal
  | .standard t _ _ => t
  | .customPath _ => (.undef)

/-- The invalid-kind configuration as the generator receives it. -/
def bananaOpts : StdOpts := { type := "banana", difficulty := "medium", locale := "en" }

/-- The challenge generated under the invalid kind. -/
def c7Challenge : Challenge := runCh (generate 50 (.standard bananaOpts) incState)

/-- C7 counterexample: an invalid but truthy kind is not replaced by the
default — `processOptions` keeps `"banana"` verbatim (only falsy values
fall back), and a subsequent `generate()` dispatches through the final
else-branch and produces a challenge of kind `mixed`, not the claimed
default `math`. -/
theorem c7_invalid_kind_counterexample :
    strOf (procType (processOptions bananaOptions)) = "banana" ∧
    strOf (procType (processOptions bananaOptions)) ≠ "math" ∧
    (generate 50 (.standard bananaOpts) incState).isSome = true ∧
    c7Challenge.type = "mixed" ∧ c7Challenge.type ≠ "math" := by
  exact ⟨by decide, by decide, by decide, by decide, by decide⟩

/-- C7 amended: a non-object (or null) configuration falls back to the full
default record, and a missing (falsy) `type`/`difficulty`/`locale` falls
back to its default (`math`/`medium`/`en`) with `generate()` then producing
the defaulted kind; an invalid truthy value, however, is kept as-is, and an
unrecognized kind makes `generate()` produce a `mixed` challenge. -/
theorem c7_options_fallback_amended :
    (∀ v : JSVal, jsTypeof v ≠ "object" ∨ v = JSVal.null →
      processOptions v = .standard (.str "math") (.str "medium") (.str "en")) ∧
    (∀ fs : List (String × JSVal),
      jsEqStr (getField (.obj fs) "type") "custom" = false →
      processOptions (.obj fs) = .standard
        (jsOr (getField (.obj fs) "type") (.str "math"))
        (jsOr (getField (.obj fs) "difficulty") (.str "medium"))
        (jsOr (getField (.obj fs) "locale") (.str "en"))) ∧
    (∀ a b : JSVal, jsTruthy a = false → jsOr a b = b) ∧
    (∀ (fuel : Nat) (o : StdOpts) (st : GenState) (ch : Challenge) (st' : GenState),
      generate fuel (.standard o) st = some (ch, st') → o.type = "math" →
      ch.type = "math") ∧
    (∀ (fuel : Nat) (o : StdOpts) (st : GenState) (ch : Challenge) (st' : GenState),
      generate fuel (.standard o) st = some (ch, st') →
      o.type ∉ ["math", "text", "riddle", "sequence", "scramble", "logic",
        "reverse", "multi"] →
      ch.type = "mixed") := by
  refine ⟨?_, ?_, ?_, generate_math_type, generate_unknown_type_mixed⟩
  · intro v h
    unfold processOptions
    split
    · rfl
    · rename_i hcond
      exfalso
      apply hcond
      rcases h with h | rfl
      · simp [h]
      · simp
  · intro fs hcust
    unfold processOptions
    rw [if_neg (by simp [jsTypeof]), if_neg (by simp [hcust])]
  · intro a b h
    unfold jsOr
    rw [h]
    rfl

/-- Witness for C7 at concrete inputs: a non-object configuration defaults
fully; a falsy field falls back through `jsOr`; a math configuration
generates a math challenge; the `"banana"` kind generates a mixed one. -/
theorem c7_witness :
    processOptions (JSVal.str "x") = .standard (.str "math") (.str "medium") (.str "en") ∧
    jsOr JSVal.undef (JSVal.str "en") = JSVal.str "en" ∧
    (runCh (generate 50 mathEasyCfg incState)).type = "math" ∧
    c7Challenge.type = "mixed" := by
  refine ⟨c7_options_fallback_amended.1 (JSVal.str "x") (Or.inl (by decide)),
    c7_options_fallback_amended.2.2.1 JSVal.undef (JSVal.str "en") rfl,
    c7_options_fallback_amended.2.2.2.1 50 mathOpts incState
      (runCh (generate 50 mathEasyCfg incState))
      (runSt (generate 50 mathEasyCfg incState) incState)
      (run_some (by decide) incState) rfl,
    c7_options_fallback_amended.2.2.2.2 50 bananaOpts incState
      c7Challenge (runSt (generate 50 (.standard bananaOpts) incState) incState)
      (run_some (by decide) incState) (by decide)⟩

/-- C8: the structural gate of `K9Guard.validate` accepts exactly the
records that are a non-null object carrying string `type`, `question`,
`nonce`, `hashedAnswer`, `salt` fields and a numeric `expiry`; on every
value failing that gate, verification returns `false` for every input
string (the gate and the short circuit are plain boolean tests — no code
that could throw is reached). -/
theorem c8_incomplete_challenge_rejected :
    (∀ v : JSVal, isValidChallenge v = true ↔
      (jsTypeof v = "object" ∧ v ≠ JSVal.null ∧
        (∃ s, getField v "type" = .str s) ∧ (∃ s, getField v "question" = .str s) ∧
        (∃ s, getField v "nonce" = .str s) ∧ (∃ n, getField v "expiry" = .num n) ∧
        (∃ s, getField v "hashedAnswer" = .str s) ∧ (∃ s, getField v "salt" = .str s))) ∧
    (∀ (parse : String → Option Json) (now : Nat) (v : JSVal) (input : String),
      isValidChallenge v = false → k9ValidateJS parse now v input = false) := by
  constructor
  · intro v
    cases v with
    | undef => simp [isValidChallenge, jsTypeof]
    | null => simp [isValidChallenge, jsTypeof]
    | bool b => simp [isValidChallenge, jsTypeof]
    | num n => simp [isValidChallenge, jsTypeof]
    | str s => simp [isValidChallenge, jsTypeof]
    | arr xs => simp [isValidChallenge, jsTypeof, getField]
    | obj fs =>
      have h1 : jsTypeof (JSVal.obj fs) = "object" := rfl
      have h2 : JSVal.obj fs ≠ JSVal.null := by simp
      simp only [isValidChallenge, h1]
      dsimp only
      simp only [bne_self_eq_false, Bool.false_eq_true, if_false, Bool.and_eq_true,
        beq_iff_eq, jsTypeof_string_iff, jsTypeof_number_iff]
      simp [h1, h2, and_assoc]

  · intro parse now v input h
    unfold k9ValidateJS
    rw [h]
    rfl

/-- A record missing all security fields. -/
def incompleteRecord : JSVal := .obj [("type", .str "math")]

/-- Witness for C8: the concrete incomplete record fails the structural
gate and is rejected for an arbitrary concrete input. -/
theorem c8_witness :
    isValidChallenge incompleteRecord = false ∧
    k9ValidateJS jsonParse 0 incompleteRecord "x" = false := by
  refine ⟨by rfl, c8_incomplete_challenge_rejected.2 jsonParse 0 incompleteRecord "x" (by rfl)⟩

/-- C9: verification rejects the empty input and any input longer than 1000
characters, for every challenge record and independently of correctness
(the gate runs before any comparison, at both the `CaptchaValidator` and the
`K9Guard` layer). -/
theorem c9_input_length_gate (parse : String → Option Json) (ch : Challenge) (input : String)
    (h : input.length = 0 ∨ input.length > 1000) :
    validate parse ch input = false ∧
    ∀ now : Nat, k9Validate parse now ch input = false := by
  have hv : isValidInput input = false := by
    unfold isValidInput
    rcases h with h | h <;> simp [h]
  constructor
  · rw [validate_eq, hv]
    rfl
  · intro now
    unfold k9Validate
    split
    · rfl
    · rw [validate_eq, hv]
      rfl

/-- 1001 copies of `a`. -/
def longInput : String := String.mk (List.replicate 1001 'a')

/-- Witness for C9: the empty input and a 1001-character input are both
rejected on a concrete record. -/
theorem c9_witness :
    (validate jsonParse defaultChallenge "" = false ∧
      ∀ now : Nat, k9Validate jsonParse now defaultChallenge "" = false) ∧
    (validate jsonParse defaultChallenge longInput = false ∧
      ∀ now : Nat, k9Validate jsonParse now defaultChallenge longInput = false) := by
  refine ⟨c9_input_length_gate jsonParse defaultChallenge "" (Or.inl rfl),
    c9_input_length_gate jsonParse defaultChallenge longInput (Or.inr ?_)⟩
  show (String.mk (List.replicate 1001 'a')).length > 1000
  simp [String.length]

/-- C10: numeric kinds are exactly math, sequence, and mixed with a numeric
stored answer; for them, verification is the input gate followed by
`validateNumeric`, which parses with `parseFloat` (so a longest numeric
prefix counts), rejects NaN and infinities, and compares the SHA-256 digest
of the parsed number's canonical decimal string (salted) against the stored
`hashedAnswer` — the text path's trimming and character-set rules are never
applied; consequently any accepted-length input whose numeric prefix parses
to the committed answer verifies. -/
theorem c10_numeric_validation :
    (∀ ch : Challenge, isNumericChallenge ch = true ↔
      (ch.type = "math" ∨ ch.type = "sequence" ∨
        (ch.type = "mixed" ∧ ∃ n, ch.answer = AnsV.num n))) ∧
    (∀ (parse : String → Option Json) (ch : Challenge) (input : String),
      isNumericChallenge ch = true →
      validate parse ch input = (isValidInput input && validateNumeric ch input)) ∧
    (∀ (ch : Challenge) (input : String) (q : ℚ),
      parseFloatM input = NumV.finite q →
      validateNumeric ch input = (sha256HexStr (numToString q ++ ch.salt) == ch.hashedAnswer)) ∧
    (∀ (ch : Challenge) (input : String),
      (parseFloatM input = NumV.nan ∨ parseFloatM input = NumV.inf ∨
        parseFloatM input = NumV.negInf) →
      validateNumeric ch input = false) ∧
    (∀ (parse : String → Option Json) (q : ℚ) (question nonce salt : String) (e : NumV)
      (input : String),
      isValidInput input = true → parseFloatM input = NumV.finite q →
      validate parse
        (Challenge.mk "math" question (AnsV.num (NumV.finite q)) nonce e
          (sha256HexStr (numToString q ++ salt)) salt []) input = true) := by
  have hiff : ∀ ch : Challenge, isNumericChallenge ch = true ↔
      (ch.type = "math" ∨ ch.type = "sequence" ∨
        (ch.type = "mixed" ∧ ∃ n, ch.answer = AnsV.num n)) := by
    intro ch
    cases ch with
    | mk t q a n e ha s steps =>
      cases a with
      | str s' =>
        simp [isNumericChallenge, Challenge.type, Challenge.answer]
      | num n' =>
        simp [isNumericChallenge, Challenge.type, Challenge.answer, or_assoc]
  refine ⟨hiff, ?_, ?_, ?_, ?_⟩
  · intro parse ch input hn
    have ht := (hiff ch).mp hn
    have hmulti : (ch.type == "multi") = false := by
      rcases ht with h | h | ⟨h, _⟩ <;> simp [h]
    have hcustom : (ch.type == "custom") = false := by
      rcases ht with h | h | ⟨h, _⟩ <;> simp [h]
    rw [validate_eq, hmulti, hcustom, hn]
    cases hvi : isValidInput input <;> rfl
  · intro ch input q hq
    unfold validateNumeric
    rw [hq]
    rfl
  · intro ch input h
    unfold validateNumeric
    rcases h with h | h | h <;> rw [h]
  · intro parse q question nonce salt e input hvi hpf
    have h1 : ((Challenge.mk "math" question (AnsV.num (NumV.finite q)) nonce e
        (sha256HexStr (numToString q ++ salt)) salt []).type == "multi") = false := rfl
    have h2 : ((Challenge.mk "math" question (AnsV.num (NumV.finite q)) nonce e
        (sha256HexStr (numToString q ++ salt)) salt []).type == "custom") = false := rfl
    have h3 : isNumericChallenge (Challenge.mk "math" question (AnsV.num (NumV.finite q))
        nonce e (sha256HexStr (numToString q ++ salt)) salt []) = true := rfl
    rw [validate_eq, hvi, h1, h2, h3]
    simp only [Bool.not_true, Bool.false_eq_true, if_false, if_true]
    unfold validateNumeric
    rw [hpf]
    show (sha256HexStr (numToString q ++ salt) == sha256HexStr (numToString q ++ salt)) = true
    exact beq_self_eq_true _

/-- A math record committing to the answer 8 with the verifier's SHA-256. -/
def eightChallenge : Challenge :=
  Challenge.mk "math" "q" (AnsV.num (NumV.finite 8)) "n" (NumV.finite 1)
    (sha256HexStr (numToString 8 ++ "salty")) "salty" []

/-- Witness for C10 at concrete inputs: against a record committing to 8,
the inputs `8abc` and `8.0` both verify (longest numeric prefix, canonical
decimal form); an input containing a character outside the text
character set still verifies, because the text rules are skipped on
numeric kinds; a non-numeric input parses to NaN and fails. -/
theorem c10_witness :
    isNumericChallenge eightChallenge = true ∧
    validate jsonParse eightChallenge "8abc" = true ∧
    validate jsonParse eightChallenge "8.0" = true ∧
    (validCharsOK "8§" = false ∧ validate jsonParse eightChallenge "8§" = true) ∧
    validateNumeric eightChallenge "abc" = false := by
  refine ⟨(c10_numeric_validation.1 eightChallenge).mpr (Or.inl rfl),
    c10_numeric_validation.2.2.2.2 jsonParse 8 "q" "n" "salty" (NumV.finite 1) "8abc"
      (by decide) (by decide),
    c10_numeric_validation.2.2.2.2 jsonParse 8 "q" "n" "salty" (NumV.finite 1) "8.0"
      (by decide) (by decide),
    ⟨by decide, c10_numeric_validation.2.2.2.2 jsonParse 8 "q" "n" "salty" (NumV.finite 1) "8§"
      (by decide) (by decide)⟩,
    c10_numeric_validation.2.2.2.1 eightChallenge "abc" (Or.inl (by decide))⟩

end K9Guard
